import Mathlib

/-!
# qustom: type inference for custom function signatures

A shallow embedding of `qfuncs.go`.  Pure functions of the program are Lean
functions; the loops that mutate local variables are folds over an explicit
state; the JavaScript parser and interpreter (the `goja` library) and the file
system are capabilities passed in as parameters.
-/

set_option autoImplicit false

namespace Qustom

/-! ## Data model -/

/-- The (detected) type of a function parameter: `type JSParamType int` with its
eight constants, in the order of the `iota` block. -/
inductive JSParamType where
  | TypeUnknown
  | TypeUndecidable
  | TypeString
  | TypeNumber
  | TypeLong
  | TypeHost
  | TypePort
  | TypeBoolean
  deriving DecidableEq, Repr, Fintype, Inhabited

open JSParamType

/-- The slice type `type JSParamTypes []JSParamType`. -/
abbrev JSParamTypes := List JSParamType

/-- The method `func (t JSParamType) String() string`. -/
def JSParamType.String : JSParamType → String
  | TypeString => "String"
  | TypeNumber => "Number"
  | TypeLong => "Long"
  | TypeHost => "Host"
  | TypePort => "Port"
  | TypeBoolean => "Boolean"
  | _ => "UNKNOWN"

/-- The method `allKnown`: false as soon as one entry is `TypeUnknown`. -/
def JSParamTypes.allKnown : JSParamTypes → Bool
  | [] => true
  | t :: rest => if t = TypeUnknown then false else JSParamTypes.allKnown rest

/-- The method `toStringSlice`: the `String()` of every entry, appended in order. -/
def JSParamTypes.toStringSlice (t : JSParamTypes) : List String :=
  t.map JSParamType.String

/-! ## The type consolidator -/

/-- The function `updateType(state *JSParamType, typ JSParamType)`, as a function
from the pointee before the call to the pointee after it.  The `state == nil`
guard returns without touching anything; a nil pointer has no pointee, and both
callers pass the address of a variable or of a slice element. -/
def updateType (state : JSParamType) (typ : JSParamType) : JSParamType :=
  if typ = TypeUnknown ∨ state = TypeUndecidable then state
  else if state = TypeUnknown then typ
  else if typ ≠ state then TypeUndecidable
  else state

/-- The inner loop `for i, _ := range ts` of `analyzeParamTypes`, entered at index
`i` with the elements of `ts` from `i` on still to visit.  The state is the pair
`(ret, varargtype)`. -/
def mergeObservation : JSParamTypes → Nat → JSParamTypes × JSParamType →
    JSParamTypes × JSParamType
  | [], _, st => st
  | x :: rest, i, (ret, varargtype) =>
    let varargtype := updateType varargtype x
    let ret := if h : i < ret.length then ret.set i (updateType ret[i] x) else ret
    mergeObservation rest (i + 1) (ret, varargtype)

/-- The local variables of `analyzeParamTypes` that its loops update. -/
structure AnalyzeState where
  ret : JSParamTypes
  varargtype : JSParamType
  vararg : Bool
  deriving DecidableEq, Repr

/-- One iteration of `for _, ts := range types[1:]`. -/
def analyzeStep (st : AnalyzeState) (ts : JSParamTypes) : AnalyzeState :=
  let vararg := if ts.length ≠ st.ret.length then true else st.vararg
  let merged := mergeObservation ts 0 (st.ret, st.varargtype)
  { ret := merged.1, varargtype := merged.2, vararg := vararg }

/-- The closing loop `for i := range ret`: an entry that is `TypeUndecidable`
becomes `TypeUnknown`. -/
def resetUndecidable (t : JSParamType) : JSParamType :=
  if t = TypeUndecidable then TypeUnknown else t

/-- The function `analyzeParamTypes(types []JSParamTypes) (ret JSParamTypes, vararg bool)`.
`ret` starts as `types[0]`; Go shares the backing array with `types[0]`, which is
not read again.  `varargtype` is computed as in the source and, as in the source,
not returned. -/
def analyzeParamTypes (types : List JSParamTypes) : JSParamTypes × Bool :=
  match types with
  | [] => ([], false)
  | first :: rest =>
    let varargtype := first.foldl updateType TypeUnknown
    let st := rest.foldl analyzeStep { ret := first, varargtype := varargtype, vararg := false }
    let ret := st.ret.map resetUndecidable
    let _varargtype := resetUndecidable st.varargtype
    (ret, st.vararg)

/-! ## The value classifier -/

/-- Go's `reflect.Kind`, the constants of package `reflect` in their order. -/
inductive Kind where
  | Invalid | Bool | Int | Int8 | Int16 | Int32 | Int64
  | Uint | Uint8 | Uint16 | Uint32 | Uint64 | Uintptr
  | Float32 | Float64 | Complex64 | Complex128
  | Array | Chan | Func | Interface | Map | Pointer | Slice
  | String | Struct | UnsafePointer
  deriving DecidableEq, Repr, Fintype, Inhabited

/-- The function `reflectJSParamType(t reflect.Type)`.  The argument is the
`Kind()` of the type, `none` for the nil `reflect.Type`. -/
def reflectJSParamType (t : Option Kind) : JSParamType :=
  match t with
  | none => TypeUnknown
  | some Kind.String => TypeString
  | some Kind.Int | some Kind.Int32 | some Kind.Int64
  | some Kind.Float32 | some Kind.Float64 => TypeNumber
  | some Kind.Bool => TypeBoolean
  | some _ => TypeUnknown

/-! ## Syntax trees handed over by the JavaScript parser -/

/-- The node types of `ast.Expression` in the parser library `goja/ast`.  The node
types that `parseCall` names have a constructor each, and `Other` stands for every
remaining node type of the library, tagged with its name.  The library this
program compiles against has no node type for a template literal: a text that
holds one does not parse, and `parser.ParseFile` returns an error for it. -/
inductive Expression where
  | StringLiteral
  | Identifier (Name : String)
  | RegExpLiteral
  | NumberLiteral
  | BooleanLiteral
  | CallExpression (Callee : Expression) (ArgumentList : List Expression)
  | Other (node : String)

/-- Statements of a parsed program: `parseCall` tells an `ast.ExpressionStatement`
from anything else. -/
inductive Statement where
  | ExpressionStatement (Expression : Expression)
  | Other (node : String)

/-- Declarations of a parsed program: `parseFunction` tells an
`ast.FunctionDeclaration`, with its name and its parameter names, from anything
else. -/
inductive Declaration where
  | FunctionDeclaration (Name : String) (ParameterList : List String)
  | Other (node : String)

/-- What the program reads of an `ast.Program`. -/
structure Program where
  Body : List Statement
  DeclarationList : List Declaration

/-- The struct `JSParam`; its field `Type` is written `Typ`, the source's name
being a keyword here. -/
structure JSParam where
  Name : String
  Typ : JSParamType
  deriving DecidableEq, Repr

/-- The struct `JSFunction`. -/
structure JSFunction where
  Name : String
  Params : List JSParam
  VarArgs : Bool
  ReturnType : JSParamType
  deriving DecidableEq, Repr

/-- The struct `JSCall`. -/
structure JSCall where
  Name : String
  ParamTypes : List JSParamType
  deriving DecidableEq, Repr

/-- The two errors of `parseCall`. -/
inductive CallError where
  | cannotParse (msg : String)
  | noMatchingCall
  deriving DecidableEq, Repr

/-- The three errors of `parseFunction`. -/
inductive FunctionError where
  | cannotParse (msg : String)
  | noDeclaration
  | noMatchingDeclaration
  deriving DecidableEq, Repr

/-- The type switch `switch a.(type)` over one argument of the call. -/
def classifyArgument : Expression → JSParamType
  | Expression.StringLiteral => TypeString
  | Expression.Identifier _ => TypeString
  | Expression.RegExpLiteral => TypeString
  | Expression.NumberLiteral => TypeNumber
  | Expression.BooleanLiteral => TypeBoolean
  | _ => TypeUnknown

/-- The loop `for _, stmt := range body` of `parseCall`: the first expression
statement that is a call whose callee is the identifier `name`. -/
def findCall (name : String) : List Statement → Except CallError JSCall
  | [] => Except.error CallError.noMatchingCall
  | Statement.ExpressionStatement
      (Expression.CallExpression (Expression.Identifier idName) ArgumentList) :: body =>
    if idName ≠ name then findCall name body
    else Except.ok { Name := idName, ParamTypes := ArgumentList.map classifyArgument }
  | _ :: body => findCall name body

/-- The function `parseCall(name, src string)`; `ParseFile` is the parser, called
with the file name and the source text. -/
def parseCall (ParseFile : String → String → Except String Program)
    (name src : String) : Except CallError JSCall :=
  match ParseFile (name ++ ".js") src with
  | Except.error err => Except.error (CallError.cannotParse err)
  | Except.ok program => findCall name program.Body

/-- The loop `for _, d := range program.DeclarationList` of `parseFunction`: the
first function declaration called `name`, `none` when `fd` stays nil. -/
def findDeclaration (name : String) : List Declaration → Option (String × List String)
  | [] => none
  | Declaration.FunctionDeclaration fname params :: rest =>
    if fname = name then some (fname, params) else findDeclaration name rest
  | Declaration.Other _ :: rest => findDeclaration name rest

/-- The function `parseFunction(name, src string)`.  The fields the composite
literal leaves out keep their zero values. -/
def parseFunction (ParseFile : String → String → Except String Program)
    (name src : String) : Except FunctionError JSFunction :=
  match ParseFile (name ++ ".js") src with
  | Except.error err => Except.error (FunctionError.cannotParse err)
  | Except.ok program =>
    if program.DeclarationList.length = 0 then Except.error FunctionError.noDeclaration
    else match findDeclaration name program.DeclarationList with
      | none => Except.error FunctionError.noMatchingDeclaration
      | some (fname, params) =>
        Except.ok { Name := fname,
                    Params := params.map (fun p => { Name := p, Typ := TypeUnknown }),
                    VarArgs := false, ReturnType := TypeUnknown }

/-! ## The sandboxed test executor -/

/-- A non-nil Go value held in an `interface{}`, by what the program observes of
it: its text under the verb `%v`. -/
structure GoValue where
  format : String
  deriving DecidableEq, Repr

/-- The call `fmt.Sprintf("%v", x)` on an `interface{}`; the nil interface prints
as `<nil>`. -/
def sprintV : Option GoValue → String
  | none => "<nil>"
  | some v => v.format

/-- The call `fmt.Sprintf("%v", b)` on a `bool`. -/
def sprintBool (b : Bool) : String := if b then "true" else "false"

/-- What the program reads of a `goja.Value`: `Export()`, `none` for nil, and the
kind of `ExportType()`, `none` for the nil type. -/
structure Value where
  Export : Option GoValue
  ExportType : Option Kind
  deriving DecidableEq, Repr

/-- The struct `Test`; `Expect` is an `interface{}`, `none` for nil. -/
structure Test where
  Call : String
  Expect : Option GoValue
  Error : Bool
  Null : Bool
  deriving DecidableEq, Repr

/-- The library and the file system the program runs on: the parser
`parser.ParseFile`, a fresh interpreter `goja.New()` with state `σ`, its method
`RunString`, which returns a value or an error and the state it leaves, and the
two reads of `compileIncludes`, by include group and by file name. -/
structure Engine (σ : Type) where
  ParseFile : String → String → Except String Program
  New : σ
  RunString : σ → String → Except String Value × σ
  ReadDir : String → Except String (List String)
  ReadFile : String → String → Except String String

/-- The errors of `executeTest`, one per `fmt.Errorf`. -/
inductive TestError where
  | failedIncludes (msg : String)
  | failedSource (msg : String)
  | failedCall (msg : String)
  | supposedToFail
  | expectedNull (result : String)
  | unexpectedResult (expect result : String)
  deriving DecidableEq, Repr

/-- The function `executeTest(source, includes string, test Test)`. -/
def executeTest {σ : Type} (eng : Engine σ) (source includes : String) (test : Test) :
    Except TestError JSParamType :=
  let vm := eng.New
  match eng.RunString vm includes with
  | (Except.error err, _) => Except.error (TestError.failedIncludes err)
  | (Except.ok _, vm) =>
    match eng.RunString vm source with
    | (Except.error err, _) => Except.error (TestError.failedSource err)
    | (Except.ok _, vm) =>
      match eng.RunString vm test.Call with
      | (Except.error err, _) =>
        if test.Error then Except.ok TypeUnknown
        else Except.error (TestError.failedCall err)
      | (Except.ok v, _) =>
        let expect := sprintV test.Expect
        let result := sprintV v.Export
        if test.Error then Except.error TestError.supposedToFail
        else if test.Null ∧ v.Export ≠ none then Except.error (TestError.expectedNull result)
        else if expect ≠ result then Except.error (TestError.unexpectedResult expect result)
        else Except.ok (reflectJSParamType v.ExportType)

/-- The inner loop `for _, f := range files` of `compileIncludes`. -/
def readIncludeFiles {σ : Type} (eng : Engine σ) (inc : String) :
    List String → String → Except String String
  | [], includes => Except.ok includes
  | f :: files, includes =>
    if ¬ f.endsWith ".js" then readIncludeFiles eng inc files includes
    else match eng.ReadFile inc f with
      | Except.error err => Except.error err
      | Except.ok b => readIncludeFiles eng inc files (includes ++ b)

/-- The function `compileIncludes(paths []string)`, continued from the text
gathered so far. -/
def compileIncludesFrom {σ : Type} (eng : Engine σ) :
    List String → String → Except String String
  | [], includes => Except.ok includes
  | inc :: paths, includes =>
    match eng.ReadDir inc with
    | Except.error err => Except.error err
    | Except.ok files =>
      match readIncludeFiles eng inc files includes with
      | Except.error err => Except.error err
      | Except.ok includes => compileIncludesFrom eng paths includes

/-- The function `compileIncludes(paths []string)`. -/
def compileIncludes {σ : Type} (eng : Engine σ) (paths : List String) :
    Except String String :=
  compileIncludesFrom eng paths ""

/-! ## Signature synthesis: the body of `generate` for one function -/

/-- The struct `Function`. -/
structure Function where
  Description : String
  ParameterTypes : String
  ReturnType : String
  VarArgs : Bool
  Source : String
  Includes : List String
  IncludesCompiled : String
  Tests : List Test
  deriving DecidableEq, Repr

/-- What `generate` reads of a `Config` for one function: the namespace and the
presence test `Meta.IsDefined(key...)` of the decoded file. -/
structure Config where
  Namespace : String
  IsDefined : List String → Bool

/-- The struct `CustomFunction`. -/
structure CustomFunction where
  Text : String
  Namespace : String
  Name : String
  ReturnType : String
  ParameterTypes : String
  ExecuteFunctionName : String
  ScriptEngine : String
  Varargs : String
  Script : String
  Username : String
  deriving DecidableEq, Repr

/-- The errors `generate` returns while it processes one function, one per
`fmt.Errorf`; test indices are the 1-based `i+1` of the message. -/
inductive GenError where
  | cannotParseFunction (err : FunctionError)
  | cannotProcessIncludes (msg : String)
  | invalidTestCase (index : Nat)
  | cannotParseTestCall (index : Nat) (err : CallError)
  | failedTest (index : Nat) (err : TestError)
  | parameterTypesNotInferred
  | returnTypeNotInferred
  deriving DecidableEq, Repr

/-- The update of `retType` at the end of one iteration of the test loop. -/
def mergeReturnType (retType rt : JSParamType) : JSParamType :=
  if rt ≠ TypeUnknown then
    if retType = TypeUnknown then rt
    else if rt ≠ retType then TypeUndecidable else retType
  else retType

/-- The loop `for i, t := range fconf.Tests`, entered at index `i` with the state
`(testParamTypes, retType)`. -/
def testLoop {σ : Type} (eng : Engine σ) (fname : String) (fconf : Function) :
    List Test → Nat → List JSParamTypes × JSParamType →
    Except GenError (List JSParamTypes × JSParamType)
  | [], _, st => Except.ok st
  | t :: tests, i, (testParamTypes, retType) =>
    if t.Expect = none ∧ ¬ t.Error ∧ ¬ t.Null then
      Except.error (GenError.invalidTestCase (i + 1))
    else match parseCall eng.ParseFile fname t.Call with
      | Except.error err => Except.error (GenError.cannotParseTestCall (i + 1) err)
      | Except.ok tc =>
        match executeTest eng fconf.Source fconf.IncludesCompiled t with
        | Except.error err => Except.error (GenError.failedTest (i + 1) err)
        | Except.ok rt =>
          testLoop eng fname fconf tests (i + 1)
            (testParamTypes ++ [tc.ParamTypes], mergeReturnType retType rt)

/-- The binding `jsf.Params[i].Type = pt[i]`, done only under
`len(jsf.Params) == len(pt)`. -/
def bindParams (params : List JSParam) (pt : JSParamTypes) : List JSParam :=
  if params.length = pt.length then
    List.zipWith (fun (p : JSParam) (t : JSParamType) => { p with Typ := t }) params pt
  else params

/-- The step on `var_args`: without the key in the file, `fconf.VarArgs` takes the
inferred flag. -/
def varArgsStep (config : Config) (fname : String) (fconf : Function) (jsf : JSFunction) :
    Function :=
  if ¬ config.IsDefined ["function", fname, "var_args"] then
    { fconf with VarArgs := jsf.VarArgs }
  else fconf

/-- The step on `parameter_types`. -/
def parameterStep (config : Config) (fname : String) (fconf : Function)
    (pt : JSParamTypes) : Except GenError Function :=
  if ¬ config.IsDefined ["function", fname, "parameter_types"] then
    if JSParamTypes.allKnown pt then
      if pt.length > 0 then
        if fconf.VarArgs then
          Except.ok { fconf with ParameterTypes := (JSParamTypes.toStringSlice pt).getD 0 "" }
        else
          Except.ok { fconf with
            ParameterTypes := String.intercalate " " (JSParamTypes.toStringSlice pt) }
      else Except.ok fconf
    else Except.error GenError.parameterTypesNotInferred
  else Except.ok fconf

/-- The step on `return_type`. -/
def returnStep (config : Config) (fname : String) (fconf : Function) (jsf : JSFunction) :
    Except GenError Function :=
  if ¬ config.IsDefined ["function", fname, "return_type"] then
    if jsf.ReturnType ≠ TypeUnknown ∧ jsf.ReturnType ≠ TypeUndecidable then
      Except.ok { fconf with ReturnType := jsf.ReturnType.String }
    else Except.error GenError.returnTypeNotInferred
  else Except.ok fconf

/-- The `CustomFunction` appended to the bundle. -/
def emit (config : Config) (fname : String) (fconf : Function) : CustomFunction :=
  { Text := "",
    Name := fname,
    ExecuteFunctionName := fname,
    Namespace := config.Namespace,
    ParameterTypes := fconf.ParameterTypes,
    ReturnType := fconf.ReturnType,
    Script := fconf.IncludesCompiled ++ fconf.Source,
    ScriptEngine := "javascript",
    Username := "admin",
    Varargs := sprintBool fconf.VarArgs }

/-- What one pass of the loop over the function names leaves: the inferred
signature `jsf`, the function definition as updated, and the bundle entry. -/
structure Generated where
  jsf : JSFunction
  fconf : Function
  cf : CustomFunction
  deriving DecidableEq, Repr

/-- Signature synthesis after the test loop: from `jsf.ReturnType = retType` to
the append to the bundle.  The line printed to standard output is left out. -/
def synthesize (config : Config) (fname : String) (fconf : Function) (jsf : JSFunction)
    (testParamTypes : List JSParamTypes) (retType : JSParamType) : Except GenError Generated :=
  let jsf := { jsf with ReturnType := retType }
  let analyzed := analyzeParamTypes testParamTypes
  let pt := analyzed.1
  let vararg := analyzed.2
  let jsf := { jsf with Params := bindParams jsf.Params pt }
  let jsf := { jsf with VarArgs := vararg }
  let fconf := varArgsStep config fname fconf jsf
  match parameterStep config fname fconf pt with
  | Except.error err => Except.error err
  | Except.ok fconf =>
    match returnStep config fname fconf jsf with
    | Except.error err => Except.error err
    | Except.ok fconf =>
      Except.ok { jsf := jsf, fconf := fconf, cf := emit config fname fconf }

/-- The body of `for _, fname := range fnames` in `generate`, for the function
`fname` with definition `fconf`. -/
def generateFunction {σ : Type} (eng : Engine σ) (config : Config) (fname : String)
    (fconf : Function) : Except GenError Generated :=
  match parseFunction eng.ParseFile fname fconf.Source with
  | Except.error err => Except.error (GenError.cannotParseFunction err)
  | Except.ok jsf =>
    match compileIncludes eng fconf.Includes with
    | Except.error err => Except.error (GenError.cannotProcessIncludes err)
    | Except.ok includes =>
      let fconf := { fconf with IncludesCompiled := includes }
      match testLoop eng fname fconf fconf.Tests 0 ([], TypeUnknown) with
      | Except.error err => Except.error err
      | Except.ok (testParamTypes, retType) =>
        synthesize config fname fconf jsf testParamTypes retType

/-! ## Reference descriptions used by the theorems -/

/-- The tags that vectors later than the first hold at position `i`, in order;
a vector without a position `i` contributes nothing. -/
def columnAt (later : List JSParamTypes) (i : Nat) : List JSParamType :=
  later.filterMap (fun v => v[i]?)

/-- One observation vector merged into `ret` position by position: positions of
`ts` beyond the length of `ret` are dropped, positions of `ret` beyond the length
of `ts` are kept. -/
def zipUpdate : JSParamTypes → JSParamTypes → JSParamTypes
  | [], _ => []
  | r :: rs, [] => r :: rs
  | r :: rs, x :: xs => updateType r x :: zipUpdate rs xs

/-- The order of the merge: `a` is below `b` when merging `a` into `b` changes
nothing. -/
def absorbs (b a : JSParamType) : Prop := updateType b a = b

instance (b a : JSParamType) : Decidable (absorbs b a) := by
  unfold absorbs; infer_instance

/-- A concrete domain type: every tag but `Unknown` and `Undecidable`. -/
def Concrete (t : JSParamType) : Prop := t ≠ TypeUnknown ∧ t ≠ TypeUndecidable

instance (t : JSParamType) : Decidable (Concrete t) := by
  unfold Concrete; infer_instance

/-- A tag that is none of `Long`, `Host` and `Port`. -/
def Inferable (t : JSParamType) : Prop := t ≠ TypeLong ∧ t ≠ TypeHost ∧ t ≠ TypePort

instance (t : JSParamType) : Decidable (Inferable t) := by
  unfold Inferable; infer_instance

/-- The stages of `generate` for one function up to the end of the test loop:
the declared signature, the compiled includes, and the observations of the
tests. -/
def Observed {σ : Type} (eng : Engine σ) (fname : String) (fconf : Function)
    (jsf : JSFunction) (includes : String) (testParamTypes : List JSParamTypes)
    (retType : JSParamType) : Prop :=
  parseFunction eng.ParseFile fname fconf.Source = Except.ok jsf ∧
  compileIncludes eng fconf.Includes = Except.ok includes ∧
  testLoop eng fname { fconf with IncludesCompiled := includes } fconf.Tests 0
    ([], TypeUnknown) = Except.ok (testParamTypes, retType)

/-- The signature `jsf` as `generate` holds it after the test loop: the merged
return tag, the consolidated parameter types bound to the declared parameters
when the two counts agree, and the inferred flag. -/
def inferredSignature (jsf : JSFunction) (testParamTypes : List JSParamTypes)
    (retType : JSParamType) : JSFunction :=
  { Name := jsf.Name,
    Params := bindParams jsf.Params (analyzeParamTypes testParamTypes).1,
    VarArgs := (analyzeParamTypes testParamTypes).2,
    ReturnType := retType }

/-- Go's `strings.Split(s, sep)` for a separator of one character, as in the call
`strings.Split(fconf.ParameterTypes, " ")` of `generate`: the pieces of `s`
between the occurrences of the separator, empty pieces included. -/
def stringsSplit (s : String) (sep : Char) : List String :=
  (s.toList.splitOn sep).map String.mk

/-- Whether the function is emitted as variadic: the value written in the file
when `var_args` is present, the inferred flag otherwise. -/
def varArgsInEffect (config : Config) (fname : String) (fconf : Function)
    (testParamTypes : List JSParamTypes) : Bool :=
  if config.IsDefined ["function", fname, "var_args"] then fconf.VarArgs
  else (analyzeParamTypes testParamTypes).2

/-! ## Example inputs -/

/-- A parser for the example functions `f`, `sum` and `greet` and their test calls;
the syntax trees are those of the texts. -/
def demoParse (src : String) : Except String Program :=
  if src = "function f(a, b) \x7b return a \x7d" then
    Except.ok { Body := [Statement.Other "FunctionStatement"],
                DeclarationList := [Declaration.FunctionDeclaration "f" ["a", "b"]] }
  else if src = "f(1)" then
    Except.ok { Body := [Statement.ExpressionStatement (Expression.CallExpression
                  (Expression.Identifier "f") [Expression.NumberLiteral])],
                DeclarationList := [] }
  else if src = "function sum(a, b) \x7b return total(arguments) \x7d" then
    Except.ok { Body := [Statement.Other "FunctionStatement"],
                DeclarationList := [Declaration.FunctionDeclaration "sum" ["a", "b"]] }
  else if src = "sum(1, 2)" then
    Except.ok { Body := [Statement.ExpressionStatement (Expression.CallExpression
                  (Expression.Identifier "sum")
                  [Expression.NumberLiteral, Expression.NumberLiteral])],
                DeclarationList := [] }
  else if src = "sum(1, 2, 3)" then
    Except.ok { Body := [Statement.ExpressionStatement (Expression.CallExpression
                  (Expression.Identifier "sum")
                  [Expression.NumberLiteral, Expression.NumberLiteral,
                   Expression.NumberLiteral])],
                DeclarationList := [] }
  else if src = "function greet(name) \x7b throw name \x7d" then
    Except.ok { Body := [Statement.Other "FunctionStatement"],
                DeclarationList := [Declaration.FunctionDeclaration "greet" ["name"]] }
  else if src = "greet(\"x\")" then
    Except.ok { Body := [Statement.ExpressionStatement (Expression.CallExpression
                  (Expression.Identifier "greet") [Expression.StringLiteral])],
                DeclarationList := [] }
  else Except.error "unexpected token"

/-- What the interpreter returns on the example texts: the call `f(1)` gives the
integer 1, the two calls of `sum` give 3 and 6, the call of `greet` throws, and
every other text runs to `undefined`. -/
def demoRun (src : String) : Except String Value :=
  if src = "f(1)" then Except.ok (Value.mk (some (GoValue.mk "1")) (some Kind.Int64))
  else if src = "sum(1, 2)" then
    Except.ok (Value.mk (some (GoValue.mk "3")) (some Kind.Int64))
  else if src = "sum(1, 2, 3)" then
    Except.ok (Value.mk (some (GoValue.mk "6")) (some Kind.Int64))
  else if src = "greet(\"x\")" then Except.error "x"
  else Except.ok (Value.mk none none)

/-- The example engine: its interpreter keeps no state, and there are no include
files. -/
def demoEngine : Engine Unit where
  ParseFile := fun _ src => demoParse src
  New := ()
  RunString := fun vm src => (demoRun src, vm)
  ReadDir := fun _ => Except.error "no such directory"
  ReadFile := fun _ _ => Except.error "no such file"

/-- A configuration file that sets none of the three overridable keys. -/
def plainConfig : Config := { Namespace := "ns", IsDefined := fun _ => false }

/-- A configuration file that writes `var_args` for the function `sum`. -/
def varArgsConfig : Config :=
  { Namespace := "ns", IsDefined := fun key => decide (key = ["function", "sum", "var_args"]) }

/-- A configuration file that writes `return_type` for the function `greet`. -/
def returnTypeConfig : Config :=
  { Namespace := "ns",
    IsDefined := fun key => decide (key = ["function", "greet", "return_type"]) }

/-- The function `f(a, b)` with the one test `f(1)` expecting 1. -/
def fDef : Function :=
  { Description := "", ParameterTypes := "", ReturnType := "", VarArgs := false,
    Source := "function f(a, b) \x7b return a \x7d", Includes := [], IncludesCompiled := "",
    Tests := [Test.mk "f(1)" (some (GoValue.mk "1")) false false] }

/-- The function `sum(a, b)` with the tests `sum(1, 2)` expecting 3 and
`sum(1, 2, 3)` expecting 6, and `var_args = false`. -/
def sumDef : Function :=
  { Description := "", ParameterTypes := "", ReturnType := "", VarArgs := false,
    Source := "function sum(a, b) \x7b return total(arguments) \x7d", Includes := [],
    IncludesCompiled := "",
    Tests := [Test.mk "sum(1, 2)" (some (GoValue.mk "3")) false false,
              Test.mk "sum(1, 2, 3)" (some (GoValue.mk "6")) false false] }

/-- The function `greet(name)` with the one test `greet("x")` expecting an error,
and the return type `String` written for the case of an override. -/
def greetDef : Function :=
  { Description := "", ParameterTypes := "", ReturnType := "String", VarArgs := false,
    Source := "function greet(name) \x7b throw name \x7d", Includes := [],
    IncludesCompiled := "",
    Tests := [Test.mk "greet(\"x\")" none true false] }

/-- A parser for the function `pick(a, b)` and its test call `pick("x", null)`,
whose second argument is a null literal. -/
def pickParse (src : String) : Except String Program :=
  if src = "function pick(a, b) \x7b return a \x7d" then
    Except.ok { Body := [Statement.Other "FunctionStatement"],
                DeclarationList := [Declaration.FunctionDeclaration "pick" ["a", "b"]] }
  else if src = "pick(\"x\", null)" then
    Except.ok { Body := [Statement.ExpressionStatement (Expression.CallExpression
                  (Expression.Identifier "pick")
                  [Expression.StringLiteral, Expression.Other "NullLiteral"])],
                DeclarationList := [] }
  else Except.error "unexpected token"

/-- The engine for `pick`: the test call returns the string `x`, every other text
runs to `undefined`. -/
def pickEngine : Engine Unit where
  ParseFile := fun _ src => pickParse src
  New := ()
  RunString := fun vm src =>
    (if src = "pick(\"x\", null)" then
      Except.ok (Value.mk (some (GoValue.mk "x")) (some Kind.String))
     else Except.ok (Value.mk none none), vm)
  ReadDir := fun _ => Except.error "no such directory"
  ReadFile := fun _ _ => Except.error "no such file"

/-- A configuration file that writes `var_args` for the function `pick`. -/
def pickConfig : Config :=
  { Namespace := "ns",
    IsDefined := fun key => decide (key = ["function", "pick", "var_args"]) }

/-- The function `pick(a, b)` with `var_args = true` and the one test
`pick("x", null)` expecting `x`. -/
def pickDef : Function :=
  { Description := "", ParameterTypes := "", ReturnType := "", VarArgs := true,
    Source := "function pick(a, b) \x7b return a \x7d", Includes := [],
    IncludesCompiled := "",
    Tests := [Test.mk "pick(\"x\", null)" (some (GoValue.mk "x")) false false] }

/-- The function `f(a, b)` with a first test `f(1)` expecting 1 and a second test
that sets none of `expect`, `error` and `null`. -/
def fInvalidDef : Function :=
  { Description := "", ParameterTypes := "", ReturnType := "", VarArgs := false,
    Source := "function f(a, b) \x7b return a \x7d", Includes := [], IncludesCompiled := "",
    Tests := [Test.mk "f(1)" (some (GoValue.mk "1")) false false,
              Test.mk "not a call" none false false] }

/-! ## Lemmas on `updateType` -/

theorem updateType_comm : ∀ a b : JSParamType, updateType a b = updateType b a := by
  decide

theorem absorbs_self_left : ∀ s y : JSParamType, absorbs (updateType s y) s := by
  decide

theorem absorbs_self_right : ∀ s y : JSParamType, absorbs (updateType s y) y := by
  decide

theorem absorbs_trans : ∀ a b c : JSParamType, absorbs b a → absorbs c b → absorbs c a := by
  decide

theorem absorbs_update : ∀ s y u : JSParamType, absorbs u s → absorbs u y →
    absorbs u (updateType s y) := by
  decide

theorem absorbs_antisymm : ∀ a b : JSParamType, absorbs b a → absorbs a b → a = b := by
  decide

theorem foldl_updateType_upper (l : List JSParamType) :
    ∀ s : JSParamType, absorbs (l.foldl updateType s) s ∧
      ∀ x ∈ l, absorbs (l.foldl updateType s) x := by
  induction l with
  | nil => intro s; exact ⟨by revert s; decide, by simp⟩
  | cons y l ih =>
    intro s
    obtain ⟨h1, h2⟩ := ih (updateType s y)
    refine ⟨absorbs_trans _ _ _ (absorbs_self_left s y) h1, ?_⟩
    intro x hx
    rcases List.mem_cons.mp hx with rfl | hx
    · exact absorbs_trans _ _ _ (absorbs_self_right s x) h1
    · exact h2 x hx

theorem foldl_updateType_least (l : List JSParamType) :
    ∀ s u : JSParamType, absorbs u s → (∀ x ∈ l, absorbs u x) →
      absorbs u (l.foldl updateType s) := by
  induction l with
  | nil => intro s u hs _; exact hs
  | cons y l ih =>
    intro s u hs hl
    exact ih (updateType s y) u
      (absorbs_update s y u hs (hl y (List.mem_cons_self y l)))
      (fun x hx => hl x (List.mem_cons_of_mem y hx))

/-! ## Lemmas on `analyzeParamTypes` -/

theorem zipUpdate_nil_right (ret : JSParamTypes) : zipUpdate ret [] = ret := by
  cases ret <;> rfl

theorem zipUpdate_length (ret : JSParamTypes) :
    ∀ ts : JSParamTypes, (zipUpdate ret ts).length = ret.length := by
  induction ret with
  | nil => intro ts; rfl
  | cons r rs ih =>
    intro ts
    cases ts with
    | nil => rfl
    | cons x xs => simp [zipUpdate, ih]

theorem zipUpdate_getElem? (ret : JSParamTypes) :
    ∀ (ts : JSParamTypes) (j : Nat),
      (zipUpdate ret ts)[j]? = (ret[j]?).map (fun s => (ts[j]?).elim s (updateType s)) := by
  induction ret with
  | nil => intro ts j; simp [zipUpdate]
  | cons r rs ih =>
    intro ts j
    cases ts with
    | nil => simp [zipUpdate]
    | cons x xs =>
      cases j with
      | zero => simp [zipUpdate]
      | succ j => simp [zipUpdate, ih]

theorem mergeObservation_beyond (ts : JSParamTypes) :
    ∀ (i : Nat) (ret : JSParamTypes) (va : JSParamType), ret.length ≤ i →
      (mergeObservation ts i (ret, va)).1 = ret := by
  induction ts with
  | nil => intro i ret va _; rfl
  | cons x rest ih =>
    intro i ret va h
    have hlt : ¬ i < ret.length := Nat.not_lt.mpr h
    simp only [mergeObservation, hlt, dite_false]
    exact ih (i + 1) ret _ (Nat.le_succ_of_le h)

theorem mergeObservation_split (ts : JSParamTypes) :
    ∀ (pre suf : JSParamTypes) (va : JSParamType),
      (mergeObservation ts pre.length (pre ++ suf, va)).1 = pre ++ zipUpdate suf ts := by
  induction ts with
  | nil => intro pre suf va; simp [mergeObservation, zipUpdate_nil_right]
  | cons x rest ih =>
    intro pre suf va
    cases suf with
    | nil =>
      have h := mergeObservation_beyond (x :: rest) pre.length (pre ++ []) va (by simp)
      simpa [zipUpdate] using h
    | cons r rs =>
      have hlt : pre.length < (pre ++ r :: rs).length := by simp
      have hget : (pre ++ r :: rs)[pre.length] = r := by
        rw [List.getElem_append_right (Nat.le_refl _)]
        simp
      have hset : (pre ++ r :: rs).set pre.length (updateType (pre ++ r :: rs)[pre.length] x)
          = (pre ++ [updateType r x]) ++ rs := by
        rw [hget]
        simp
      simp only [mergeObservation, hlt, dite_true]
      rw [hset]
      have hlen : pre.length + 1 = (pre ++ [updateType r x]).length := by simp
      rw [hlen, ih (pre ++ [updateType r x]) rs]
      simp [zipUpdate]

theorem mergeObservation_fst (ts ret : JSParamTypes) (va : JSParamType) :
    (mergeObservation ts 0 (ret, va)).1 = zipUpdate ret ts := by
  simpa using mergeObservation_split ts [] ret va

theorem foldl_analyzeStep_ret (rest : List JSParamTypes) :
    ∀ st : AnalyzeState, (rest.foldl analyzeStep st).ret = rest.foldl zipUpdate st.ret := by
  induction rest with
  | nil => intro st; rfl
  | cons ts rest ih =>
    intro st
    simp only [List.foldl_cons]
    rw [ih]
    simp [analyzeStep, mergeObservation_fst]

theorem foldl_zipUpdate_length (rest : List JSParamTypes) :
    ∀ ret : JSParamTypes, (rest.foldl zipUpdate ret).length = ret.length := by
  induction rest with
  | nil => intro ret; rfl
  | cons ts rest ih => intro ret; simp [ih, zipUpdate_length]

theorem foldl_zipUpdate_getElem? (rest : List JSParamTypes) :
    ∀ (ret : JSParamTypes) (j : Nat),
      (rest.foldl zipUpdate ret)[j]? =
        (ret[j]?).map (fun s => (columnAt rest j).foldl updateType s) := by
  induction rest with
  | nil => intro ret j; simp [columnAt]
  | cons ts rest ih =>
    intro ret j
    simp only [List.foldl_cons]
    rw [ih, zipUpdate_getElem?]
    cases hr : ret[j]? with
    | none => simp
    | some s =>
      cases ht : ts[j]? with
      | none => simp [columnAt, ht]
      | some x => simp [columnAt, ht]

theorem foldl_analyzeStep_vararg (rest : List JSParamTypes) :
    ∀ st : AnalyzeState, ((rest.foldl analyzeStep st).vararg = true ↔
      (st.vararg = true ∨ ∃ ts ∈ rest, ts.length ≠ st.ret.length)) := by
  induction rest with
  | nil => intro st; simp
  | cons ts rest ih =>
    intro st
    simp only [List.foldl_cons]
    rw [ih]
    have hlen : (analyzeStep st ts).ret.length = st.ret.length := by
      simp [analyzeStep, mergeObservation_fst, zipUpdate_length]
    rw [hlen]
    by_cases h : ts.length = st.ret.length
    · simp [analyzeStep, h]
    · simp [analyzeStep, h]

theorem resetUndecidable_ne : ∀ t : JSParamType, resetUndecidable t ≠ TypeUndecidable := by
  decide

/-! ## Lemmas on the steps of signature synthesis -/

theorem varArgsStep_fields (config : Config) (fname : String) (fconf : Function)
    (jsf : JSFunction) :
    (varArgsStep config fname fconf jsf).ParameterTypes = fconf.ParameterTypes ∧
    (varArgsStep config fname fconf jsf).ReturnType = fconf.ReturnType ∧
    (varArgsStep config fname fconf jsf).IncludesCompiled = fconf.IncludesCompiled := by
  unfold varArgsStep
  split <;> simp

theorem varArgsStep_defined (config : Config) (fname : String) (fconf : Function)
    (jsf : JSFunction) (h : config.IsDefined ["function", fname, "var_args"] = true) :
    varArgsStep config fname fconf jsf = fconf := by
  simp [varArgsStep, h]

theorem parameterStep_defined (config : Config) (fname : String) (fconf : Function)
    (pt : JSParamTypes) (h : config.IsDefined ["function", fname, "parameter_types"] = true) :
    parameterStep config fname fconf pt = Except.ok fconf := by
  simp [parameterStep, h]

theorem allKnown_iff (pt : JSParamTypes) :
    JSParamTypes.allKnown pt = true ↔ TypeUnknown ∉ pt := by
  induction pt with
  | nil => simp [JSParamTypes.allKnown]
  | cons t rest ih =>
    by_cases ht : t = TypeUnknown
    · simp [JSParamTypes.allKnown, ht]
    · have hne : ¬ TypeUnknown = t := fun h => ht h.symm
      simp [JSParamTypes.allKnown, ht, hne, ih]

theorem parameterStep_error_iff (config : Config) (fname : String) (fconf : Function)
    (pt : JSParamTypes) (e : GenError) :
    parameterStep config fname fconf pt = Except.error e ↔
      (config.IsDefined ["function", fname, "parameter_types"] = false ∧
        TypeUnknown ∈ pt ∧ e = GenError.parameterTypesNotInferred) := by
  unfold parameterStep
  by_cases hd : config.IsDefined ["function", fname, "parameter_types"] = true
  · simp [hd]
  · have hd' : config.IsDefined ["function", fname, "parameter_types"] = false := by
      simpa using hd
    rw [if_pos hd]
    by_cases hk : JSParamTypes.allKnown pt = true
    · have hm := (allKnown_iff pt).mp hk
      rw [if_pos hk]
      constructor
      · intro h
        split at h
        · split at h <;> cases h
        · cases h
      · rintro ⟨_, h, _⟩
        exact absurd h hm
    · have hm : TypeUnknown ∈ pt := by
        by_contra hm
        exact hk ((allKnown_iff pt).mpr hm)
      rw [if_neg hk]
      constructor
      · intro h
        cases h
        exact ⟨hd', hm, rfl⟩
      · rintro ⟨_, _, rfl⟩
        rfl

theorem parameterStep_ok_fields (config : Config) (fname : String) (fconf f₁ : Function)
    (pt : JSParamTypes) (h : parameterStep config fname fconf pt = Except.ok f₁) :
    f₁.ReturnType = fconf.ReturnType ∧ f₁.VarArgs = fconf.VarArgs ∧
    f₁.IncludesCompiled = fconf.IncludesCompiled ∧ f₁.Source = fconf.Source := by
  unfold parameterStep at h
  split at h
  · split at h
    · split at h
      · split at h <;> (cases h; simp)
      · cases h; simp
    · cases h
  · cases h; simp

theorem returnStep_defined (config : Config) (fname : String) (fconf : Function)
    (jsf : JSFunction) (h : config.IsDefined ["function", fname, "return_type"] = true) :
    returnStep config fname fconf jsf = Except.ok fconf := by
  simp [returnStep, h]

theorem returnStep_error_iff (config : Config) (fname : String) (fconf : Function)
    (jsf : JSFunction) (e : GenError) :
    returnStep config fname fconf jsf = Except.error e ↔
      (config.IsDefined ["function", fname, "return_type"] = false ∧
        (jsf.ReturnType = TypeUnknown ∨ jsf.ReturnType = TypeUndecidable) ∧
        e = GenError.returnTypeNotInferred) := by
  unfold returnStep
  by_cases hd : config.IsDefined ["function", fname, "return_type"] = true
  · simp [hd]
  · have hd' : config.IsDefined ["function", fname, "return_type"] = false := by
      simpa using hd
    rw [if_pos hd]
    by_cases hc : jsf.ReturnType ≠ TypeUnknown ∧ jsf.ReturnType ≠ TypeUndecidable
    · rw [if_pos hc]
      constructor
      · intro h
        cases h
      · rintro ⟨_, h | h, _⟩
        · exact absurd h hc.1
        · exact absurd h hc.2
    · have hn : jsf.ReturnType = TypeUnknown ∨ jsf.ReturnType = TypeUndecidable := by
        by_contra hn
        exact hc ⟨fun h => hn (Or.inl h), fun h => hn (Or.inr h)⟩
      rw [if_neg hc]
      constructor
      · intro h
        cases h
        exact ⟨hd', hn, rfl⟩
      · rintro ⟨_, _, rfl⟩
        rfl

theorem returnStep_ok_fields (config : Config) (fname : String) (f₁ f₂ : Function)
    (jsf : JSFunction) (h : returnStep config fname f₁ jsf = Except.ok f₂) :
    f₂.ParameterTypes = f₁.ParameterTypes ∧ f₂.VarArgs = f₁.VarArgs ∧
    (config.IsDefined ["function", fname, "return_type"] = false →
      Concrete jsf.ReturnType ∧ f₂.ReturnType = jsf.ReturnType.String) ∧
    (config.IsDefined ["function", fname, "return_type"] = true → f₂ = f₁) := by
  unfold returnStep at h
  split at h
  · rename_i hd
    have hd' : config.IsDefined ["function", fname, "return_type"] = false := by
      simpa using hd
    split at h
    · rename_i hc
      cases h
      simp [hd', Concrete, hc]
    · cases h
  · rename_i hd
    have hd' : config.IsDefined ["function", fname, "return_type"] = true := by
      simpa using hd
    cases h
    simp [hd']

theorem synthesize_eq (config : Config) (fname : String) (fconf : Function)
    (jsf : JSFunction) (tpt : List JSParamTypes) (rt : JSParamType) :
    synthesize config fname fconf jsf tpt rt =
      match parameterStep config fname
          (varArgsStep config fname fconf (inferredSignature jsf tpt rt))
          (analyzeParamTypes tpt).1 with
      | Except.error err => Except.error err
      | Except.ok f₁ =>
        match returnStep config fname f₁ (inferredSignature jsf tpt rt) with
        | Except.error err => Except.error err
        | Except.ok f₂ =>
          Except.ok { jsf := inferredSignature jsf tpt rt, fconf := f₂,
                      cf := emit config fname f₂ } := by
  rfl

theorem synthesize_ok (config : Config) (fname : String) (fconf : Function)
    (jsf : JSFunction) (tpt : List JSParamTypes) (rt : JSParamType) (g : Generated)
    (h : synthesize config fname fconf jsf tpt rt = Except.ok g) :
    ∃ f₁ f₂, parameterStep config fname
        (varArgsStep config fname fconf (inferredSignature jsf tpt rt))
        (analyzeParamTypes tpt).1 = Except.ok f₁ ∧
      returnStep config fname f₁ (inferredSignature jsf tpt rt) = Except.ok f₂ ∧
      g = { jsf := inferredSignature jsf tpt rt, fconf := f₂, cf := emit config fname f₂ } := by
  rw [synthesize_eq] at h
  split at h
  · cases h
  · rename_i f₁ h₁
    split at h
    · cases h
    · rename_i f₂ h₂
      cases h
      exact ⟨f₁, f₂, h₁, h₂, rfl⟩

theorem synthesize_error (config : Config) (fname : String) (fconf : Function)
    (jsf : JSFunction) (tpt : List JSParamTypes) (rt : JSParamType) (e : GenError)
    (h : synthesize config fname fconf jsf tpt rt = Except.error e) :
    parameterStep config fname
        (varArgsStep config fname fconf (inferredSignature jsf tpt rt))
        (analyzeParamTypes tpt).1 = Except.error e ∨
    ∃ f₁, parameterStep config fname
        (varArgsStep config fname fconf (inferredSignature jsf tpt rt))
        (analyzeParamTypes tpt).1 = Except.ok f₁ ∧
      returnStep config fname f₁ (inferredSignature jsf tpt rt) = Except.error e := by
  rw [synthesize_eq] at h
  split at h
  · rename_i err h₁
    cases h
    exact Or.inl h₁
  · rename_i f₁ h₁
    split at h
    · rename_i err h₂
      cases h
      exact Or.inr ⟨f₁, h₁, h₂⟩
    · cases h

theorem testLoop_error_kind {σ : Type} (eng : Engine σ) (fname : String) (fconf : Function)
    (tests : List Test) :
    ∀ (i : Nat) (st : List JSParamTypes × JSParamType) (e : GenError),
      testLoop eng fname fconf tests i st = Except.error e →
      e ≠ GenError.parameterTypesNotInferred ∧ e ≠ GenError.returnTypeNotInferred := by
  induction tests with
  | nil => intro i st e h; simp [testLoop] at h
  | cons t tests ih =>
    intro i st e h
    obtain ⟨tpt, rt⟩ := st
    simp only [testLoop] at h
    split at h
    · cases h; simp
    · split at h
      · cases h; simp
      · split at h
        · cases h; simp
        · exact ih _ _ _ h

theorem generateFunction_ok {σ : Type} (eng : Engine σ) (config : Config) (fname : String)
    (fconf : Function) (g : Generated)
    (h : generateFunction eng config fname fconf = Except.ok g) :
    ∃ jsf includes tpt rt, Observed eng fname fconf jsf includes tpt rt ∧
      synthesize config fname { fconf with IncludesCompiled := includes } jsf tpt rt
        = Except.ok g := by
  unfold generateFunction at h
  split at h
  · cases h
  · rename_i jsf hp
    split at h
    · cases h
    · rename_i includes hi
      dsimp only at h
      split at h
      · cases h
      · rename_i tpt rt hl
        exact ⟨jsf, includes, tpt, rt, ⟨hp, hi, hl⟩, h⟩

theorem generateFunction_error {σ : Type} (eng : Engine σ) (config : Config)
    (fname : String) (fconf : Function) (e : GenError)
    (he : e = GenError.parameterTypesNotInferred ∨ e = GenError.returnTypeNotInferred)
    (h : generateFunction eng config fname fconf = Except.error e) :
    ∃ jsf includes tpt rt, Observed eng fname fconf jsf includes tpt rt ∧
      synthesize config fname { fconf with IncludesCompiled := includes } jsf tpt rt
        = Except.error e := by
  unfold generateFunction at h
  split at h
  · cases h; simp at he
  · rename_i jsf hp
    split at h
    · cases h; simp at he
    · rename_i includes hi
      dsimp only at h
      split at h
      · rename_i err hl
        cases h
        have := testLoop_error_kind eng fname _ _ _ _ _ hl
        rcases he with he | he
        · exact absurd he this.1
        · exact absurd he this.2
      · rename_i tpt rt hl
        exact ⟨jsf, includes, tpt, rt, ⟨hp, hi, hl⟩, h⟩

theorem zipWith_bind (params : List JSParam) :
    ∀ pt : JSParamTypes, params.length = pt.length →
      (List.zipWith (fun (p : JSParam) (t : JSParamType) => { p with Typ := t }) params pt).map
          JSParam.Typ = pt ∧
      (List.zipWith (fun (p : JSParam) (t : JSParamType) => { p with Typ := t }) params pt).map
          JSParam.Name = params.map JSParam.Name := by
  induction params with
  | nil =>
    intro pt h
    cases pt with
    | nil => simp
    | cons t ts => simp at h
  | cons p ps ih =>
    intro pt h
    cases pt with
    | nil => simp at h
    | cons t ts =>
      have hlen : ps.length = ts.length := by simpa using h
      obtain ⟨h₁, h₂⟩ := ih ts hlen
      simp [h₁, h₂]

theorem bindParams_names (params : List JSParam) (pt : JSParamTypes) :
    (bindParams params pt).map JSParam.Name = params.map JSParam.Name := by
  unfold bindParams
  split
  · rename_i h
    exact (zipWith_bind params pt h).2
  · rfl

theorem bindParams_types (params : List JSParam) (pt : JSParamTypes)
    (h : params.length = pt.length) : (bindParams params pt).map JSParam.Typ = pt := by
  unfold bindParams
  rw [if_pos h]
  exact (zipWith_bind params pt h).1

/-! ## Lemmas on the tags that inference produces -/

theorem updateType_inferable : ∀ a b : JSParamType, Inferable a → Inferable b →
    Inferable (updateType a b) := by
  decide

theorem resetUndecidable_inferable : ∀ a : JSParamType, Inferable a →
    Inferable (resetUndecidable a) := by
  decide

theorem mergeReturnType_inferable : ∀ a b : JSParamType, Inferable a → Inferable b →
    Inferable (mergeReturnType a b) := by
  decide

theorem reflectJSParamType_inferable : ∀ k : Option Kind, Inferable (reflectJSParamType k) := by
  decide

theorem classifyArgument_inferable (e : Expression) : Inferable (classifyArgument e) := by
  cases e <;> simp [classifyArgument, Inferable]

theorem zipUpdate_inferable (ret : JSParamTypes) :
    ∀ ts : JSParamTypes, (∀ t ∈ ret, Inferable t) → (∀ t ∈ ts, Inferable t) →
      ∀ t ∈ zipUpdate ret ts, Inferable t := by
  induction ret with
  | nil => intro ts _ _ t ht; simp [zipUpdate] at ht
  | cons r rs ih =>
    intro ts hr hts t ht
    cases ts with
    | nil => exact hr t (by simpa [zipUpdate] using ht)
    | cons x xs =>
      simp only [zipUpdate, List.mem_cons] at ht
      rcases ht with rfl | ht
      · exact updateType_inferable r x (hr r (List.mem_cons_self r rs))
          (hts x (List.mem_cons_self x xs))
      · exact ih xs (fun a ha => hr a (List.mem_cons_of_mem r ha))
          (fun a ha => hts a (List.mem_cons_of_mem x ha)) t ht

theorem foldl_zipUpdate_inferable (rest : List JSParamTypes) :
    ∀ ret : JSParamTypes, (∀ t ∈ ret, Inferable t) → (∀ v ∈ rest, ∀ t ∈ v, Inferable t) →
      ∀ t ∈ rest.foldl zipUpdate ret, Inferable t := by
  induction rest with
  | nil => intro ret hr _ t ht; exact hr t ht
  | cons ts rest ih =>
    intro ret hr hrest
    simp only [List.foldl_cons]
    exact ih (zipUpdate ret ts)
      (zipUpdate_inferable ret ts hr (hrest ts (List.mem_cons_self ts rest)))
      (fun v hv => hrest v (List.mem_cons_of_mem ts hv))

theorem analyzeParamTypes_inferable (types : List JSParamTypes)
    (h : ∀ v ∈ types, ∀ t ∈ v, Inferable t) :
    ∀ t ∈ (analyzeParamTypes types).1, Inferable t := by
  cases types with
  | nil => intro t ht; simp [analyzeParamTypes] at ht
  | cons first rest =>
    intro t ht
    simp only [analyzeParamTypes, foldl_analyzeStep_ret] at ht
    obtain ⟨a, ha, rfl⟩ := List.mem_map.mp ht
    exact resetUndecidable_inferable a
      (foldl_zipUpdate_inferable rest first (h first (List.mem_cons_self first rest))
        (fun v hv => h v (List.mem_cons_of_mem first hv)) a ha)

theorem findCall_inferable (name : String) (body : List Statement) :
    ∀ call : JSCall, findCall name body = Except.ok call →
      ∀ t ∈ call.ParamTypes, Inferable t := by
  induction body with
  | nil => intro call h; simp [findCall] at h
  | cons stmt body ih =>
    intro call h
    cases stmt with
    | Other n =>
      simp only [findCall] at h
      exact ih call h
    | ExpressionStatement e =>
      cases e with
      | CallExpression callee args =>
        cases callee with
        | Identifier idName =>
          simp only [findCall] at h
          split at h
          · exact ih call h
          · cases h
            intro t ht
            obtain ⟨a, _, rfl⟩ := List.mem_map.mp ht
            exact classifyArgument_inferable a
        | _ =>
          simp only [findCall] at h
          exact ih call h
      | _ =>
        simp only [findCall] at h
        exact ih call h

theorem parseCall_inferable (ParseFile : String → String → Except String Program)
    (name src : String) (call : JSCall) (h : parseCall ParseFile name src = Except.ok call) :
    ∀ t ∈ call.ParamTypes, Inferable t := by
  unfold parseCall at h
  split at h
  · cases h
  · exact findCall_inferable name _ call h

/-! ## Lemmas on the test executor -/

theorem executeTest_of_error_flag {σ : Type} (eng : Engine σ) (source includes : String)
    (test : Test) (h : test.Error = true) :
    executeTest eng source includes test =
      match eng.RunString eng.New includes with
      | (Except.error err, _) => Except.error (TestError.failedIncludes err)
      | (Except.ok _, vm) =>
        match eng.RunString vm source with
        | (Except.error err, _) => Except.error (TestError.failedSource err)
        | (Except.ok _, vm) =>
          match eng.RunString vm test.Call with
          | (Except.error _, _) => Except.ok TypeUnknown
          | (Except.ok _, _) => Except.error TestError.supposedToFail := by
  unfold executeTest
  simp only [h, if_true]

theorem executeTest_error_flag_unknown {σ : Type} (eng : Engine σ)
    (source includes : String) (test : Test) (h : test.Error = true) (r : JSParamType)
    (hr : executeTest eng source includes test = Except.ok r) : r = TypeUnknown := by
  rw [executeTest_of_error_flag eng source includes test h] at hr
  split at hr
  · cases hr
  · split at hr
    · cases hr
    · split at hr
      · cases hr; rfl
      · cases hr

theorem executeTest_inferable {σ : Type} (eng : Engine σ) (source includes : String)
    (test : Test) (r : JSParamType)
    (hr : executeTest eng source includes test = Except.ok r) : Inferable r := by
  unfold executeTest at hr
  dsimp only at hr
  split at hr
  · cases hr
  · split at hr
    · cases hr
    · split at hr
      · split at hr
        · cases hr; decide
        · cases hr
      · split at hr
        · cases hr
        · split at hr
          · cases hr
          · split at hr
            · cases hr
            · cases hr
              exact reflectJSParamType_inferable _

theorem testLoop_inferable {σ : Type} (eng : Engine σ) (fname : String) (fconf : Function)
    (tests : List Test) :
    ∀ (i : Nat) (st out : List JSParamTypes × JSParamType),
      (∀ v ∈ st.1, ∀ t ∈ v, Inferable t) → Inferable st.2 →
      testLoop eng fname fconf tests i st = Except.ok out →
      (∀ v ∈ out.1, ∀ t ∈ v, Inferable t) ∧ Inferable out.2 := by
  induction tests with
  | nil =>
    intro i st out h₁ h₂ h
    simp only [testLoop] at h
    cases h
    exact ⟨h₁, h₂⟩
  | cons t tests ih =>
    intro i st out h₁ h₂ h
    obtain ⟨tpt, rt⟩ := st
    simp only [testLoop] at h
    split at h
    · cases h
    · split at h
      · cases h
      · rename_i tc htc
        split at h
        · cases h
        · rename_i r hr
          refine ih _ _ out ?_ ?_ h
          · intro v hv
            rcases List.mem_append.mp hv with hv | hv
            · exact h₁ v hv
            · have : v = tc.ParamTypes := by simpa using hv
              subst this
              exact parseCall_inferable _ _ _ tc htc
          · exact mergeReturnType_inferable rt r h₂ (executeTest_inferable eng _ _ t r hr)

theorem analyzeParamTypes_no_undecidable (types : List JSParamTypes) :
    TypeUndecidable ∉ (analyzeParamTypes types).1 := by
  cases types with
  | nil => simp [analyzeParamTypes]
  | cons first rest =>
    intro hmem
    simp only [analyzeParamTypes] at hmem
    obtain ⟨t, _, ht⟩ := List.mem_map.mp hmem
    exact resetUndecidable_ne t ht

theorem synthesize_override (config : Config) (fname : String) (fconf : Function)
    (jsf : JSFunction) (tpt : List JSParamTypes) (rt : JSParamType) :
    (config.IsDefined ["function", fname, "parameter_types"] = true →
      synthesize config fname fconf jsf tpt rt ≠
          Except.error GenError.parameterTypesNotInferred ∧
      ∀ g, synthesize config fname fconf jsf tpt rt = Except.ok g →
        g.cf.ParameterTypes = fconf.ParameterTypes) ∧
    (config.IsDefined ["function", fname, "return_type"] = true →
      synthesize config fname fconf jsf tpt rt ≠
          Except.error GenError.returnTypeNotInferred ∧
      ∀ g, synthesize config fname fconf jsf tpt rt = Except.ok g →
        g.cf.ReturnType = fconf.ReturnType) ∧
    (config.IsDefined ["function", fname, "var_args"] = true →
      ∀ g, synthesize config fname fconf jsf tpt rt = Except.ok g →
        g.cf.Varargs = sprintBool fconf.VarArgs) := by
  refine ⟨fun hd => ⟨?_, ?_⟩, fun hd => ⟨?_, ?_⟩, fun hd => ?_⟩
  · intro h
    rcases synthesize_error _ _ _ _ _ _ _ h with h₁ | ⟨f₁, _, h₂⟩
    · have := ((parameterStep_error_iff _ _ _ _ _).mp h₁).1
      rw [hd] at this
      cases this
    · have := ((returnStep_error_iff _ _ _ _ _).mp h₂).2.2
      cases this
  · intro g h
    obtain ⟨f₁, f₂, h₁, h₂, rfl⟩ := synthesize_ok _ _ _ _ _ _ _ h
    rw [parameterStep_defined _ _ _ _ hd] at h₁
    cases h₁
    have := (returnStep_ok_fields _ _ _ _ _ h₂).1
    simp only [emit, this]
    exact (varArgsStep_fields _ _ _ _).1
  · intro h
    rcases synthesize_error _ _ _ _ _ _ _ h with h₁ | ⟨f₁, _, h₂⟩
    · have := ((parameterStep_error_iff _ _ _ _ _).mp h₁).2.2
      cases this
    · have := ((returnStep_error_iff _ _ _ _ _).mp h₂).1
      rw [hd] at this
      cases this
  · intro g h
    obtain ⟨f₁, f₂, h₁, h₂, rfl⟩ := synthesize_ok _ _ _ _ _ _ _ h
    have h₃ := (returnStep_ok_fields _ _ _ _ _ h₂).2.2.2 hd
    subst h₃
    simp only [emit]
    rw [(parameterStep_ok_fields _ _ _ _ _ h₁).1]
    exact (varArgsStep_fields _ _ _ _).2.1
  · intro g h
    obtain ⟨f₁, f₂, h₁, h₂, rfl⟩ := synthesize_ok _ _ _ _ _ _ _ h
    simp only [emit]
    rw [(returnStep_ok_fields _ _ _ _ _ h₂).2.1, (parameterStep_ok_fields _ _ _ _ _ h₁).2.1,
      varArgsStep_defined _ _ _ _ hd]

theorem testLoop_single_error_flag {σ : Type} (eng : Engine σ) (fname : String)
    (fconf : Function) (t : Test) (ht : t.Error = true) (i : Nat)
    (tpt₀ tpt : List JSParamTypes) (rt : JSParamType)
    (h : testLoop eng fname fconf [t] i (tpt₀, TypeUnknown) = Except.ok (tpt, rt)) :
    rt = TypeUnknown := by
  simp only [testLoop] at h
  split at h
  · cases h
  · split at h
    · cases h
    · split at h
      · cases h
      · rename_i r hr
        have hu := executeTest_error_flag_unknown eng _ _ t ht r hr
        subst hu
        cases h
        rfl

theorem inferable_concrete_cases : ∀ t : JSParamType, Inferable t → Concrete t →
    t = TypeString ∨ t = TypeNumber ∨ t = TypeBoolean := by
  decide

theorem inferable_concrete_name : ∀ t : JSParamType, Inferable t → Concrete t →
    t.String ∈ ["String", "Number", "Boolean"] := by
  decide

theorem parameterStep_ok_types (config : Config) (fname : String) (fconf f₁ : Function)
    (pt : JSParamTypes)
    (hd : config.IsDefined ["function", fname, "parameter_types"] = false)
    (h : parameterStep config fname fconf pt = Except.ok f₁) :
    f₁.ParameterTypes = fconf.ParameterTypes ∨
    ∃ pt' : JSParamTypes, (∀ t ∈ pt', t ∈ pt) ∧
      f₁.ParameterTypes = String.intercalate " " (pt'.map JSParamType.String) := by
  unfold parameterStep at h
  have hd' : ¬ config.IsDefined ["function", fname, "parameter_types"] = true := by
    simp [hd]
  rw [if_pos hd'] at h
  split at h
  · split at h
    · rename_i hlen
      split at h
      · cases h
        cases pt with
        | nil => simp at hlen
        | cons t ts =>
          exact Or.inr ⟨[t], by simp, by simp [JSParamTypes.toStringSlice, String.intercalate,
            String.intercalate.go]⟩
      · cases h
        exact Or.inr ⟨pt, fun t ht => ht, rfl⟩
    · cases h
      exact Or.inl rfl
  · cases h

/-! ## Claims on the type consolidator -/

/-- C1: `updateType` is the reference pairwise merge over all eight tags: merging
`Unknown` into `S` leaves `S`, merging `T` into `Unknown` gives `T`, `Undecidable`
stays whatever is merged into it, two different tags that are both not `Unknown`
give `Undecidable`, and merging a tag into itself leaves it. -/
theorem updateType_reference_merge :
    (∀ S : JSParamType, updateType S TypeUnknown = S) ∧
    (∀ T : JSParamType, updateType TypeUnknown T = T) ∧
    (∀ T : JSParamType, updateType TypeUndecidable T = TypeUndecidable) ∧
    (∀ S T : JSParamType, S ≠ TypeUnknown → T ≠ TypeUnknown → S ≠ T →
      updateType S T = TypeUndecidable) ∧
    (∀ S : JSParamType, updateType S S = S) := by
  decide

/-- C2: folding `updateType` over two lists of observations that hold the same
set of tags, in any order and with any repetitions, from the same start state ends
in the same state. -/
theorem foldl_updateType_same_set (S : JSParamType) (l₁ l₂ : List JSParamType)
    (h : ∀ t : JSParamType, t ∈ l₁ ↔ t ∈ l₂) :
    l₁.foldl updateType S = l₂.foldl updateType S := by
  obtain ⟨hs₁, hl₁⟩ := foldl_updateType_upper l₁ S
  obtain ⟨hs₂, hl₂⟩ := foldl_updateType_upper l₂ S
  apply absorbs_antisymm
  · exact foldl_updateType_least l₁ S _ hs₂ (fun x hx => hl₂ x ((h x).mp hx))
  · exact foldl_updateType_least l₂ S _ hs₁ (fun x hx => hl₁ x ((h x).mpr hx))

/-- Witness of C2: `[String, Number, String]` and `[Number, String]` from `Unknown`. -/
theorem foldl_updateType_same_set_witness :
    [TypeString, TypeNumber, TypeString].foldl updateType TypeUnknown =
      [TypeNumber, TypeString].foldl updateType TypeUnknown :=
  foldl_updateType_same_set TypeUnknown [TypeString, TypeNumber, TypeString]
    [TypeNumber, TypeString] (by decide)

/-- C3: on the empty list `analyzeParamTypes` returns `vararg = false`; on a
non-empty list it returns `vararg = true` exactly when some vector has a length
other than the first vector's, whatever tags the vectors hold. -/
theorem analyzeParamTypes_vararg :
    (analyzeParamTypes []).2 = false ∧
    ∀ (first : JSParamTypes) (rest : List JSParamTypes),
      ((analyzeParamTypes (first :: rest)).2 = true ↔
        ∃ ts ∈ first :: rest, ts.length ≠ first.length) := by
  refine ⟨rfl, ?_⟩
  intro first rest
  simp only [analyzeParamTypes]
  rw [foldl_analyzeStep_vararg]
  simp

/-- C4: on a non-empty list `analyzeParamTypes` returns a vector of the first
vector's length; its entry at `i` is the fold of `updateType`, seeded with the first
vector's tag at `i`, over the tags that later vectors hold at `i`, with a final
`Undecidable` replaced by `Unknown`; no entry is `Undecidable`. -/
theorem analyzeParamTypes_positions (first : JSParamTypes) (rest : List JSParamTypes) :
    (analyzeParamTypes (first :: rest)).1.length = first.length ∧
    (∀ i : Nat, (analyzeParamTypes (first :: rest)).1[i]? =
      (first[i]?).map (fun seed =>
        resetUndecidable ((columnAt rest i).foldl updateType seed))) ∧
    TypeUndecidable ∉ (analyzeParamTypes (first :: rest)).1 := by
  simp only [analyzeParamTypes, foldl_analyzeStep_ret]
  refine ⟨by simp [foldl_zipUpdate_length], ?_, ?_⟩
  · intro i
    rw [List.getElem?_map, foldl_zipUpdate_getElem?]
    cases first[i]? <;> simp
  · intro hmem
    obtain ⟨t, _, ht⟩ := List.mem_map.mp hmem
    exact resetUndecidable_ne t ht

/-! ## Claims on signature synthesis -/

/-- C5: an explicit override wins over inference.  For each of `parameter_types`,
`return_type` and `var_args`, when the key is present in the file the value emitted
for the field is the author's value, for every inference result handed to the
synthesis and for every run of `generate` on the function, and the error of an
uninferred parameter or return type is not raised for that field. -/
theorem override_wins {σ : Type} (eng : Engine σ) (config : Config) (fname : String)
    (fconf : Function) :
    (config.IsDefined ["function", fname, "parameter_types"] = true →
      (∀ jsf tpt rt,
        synthesize config fname fconf jsf tpt rt ≠
            Except.error GenError.parameterTypesNotInferred ∧
        ∀ g, synthesize config fname fconf jsf tpt rt = Except.ok g →
          g.cf.ParameterTypes = fconf.ParameterTypes) ∧
      generateFunction eng config fname fconf ≠
          Except.error GenError.parameterTypesNotInferred ∧
      ∀ g, generateFunction eng config fname fconf = Except.ok g →
        g.cf.ParameterTypes = fconf.ParameterTypes) ∧
    (config.IsDefined ["function", fname, "return_type"] = true →
      (∀ jsf tpt rt,
        synthesize config fname fconf jsf tpt rt ≠
            Except.error GenError.returnTypeNotInferred ∧
        ∀ g, synthesize config fname fconf jsf tpt rt = Except.ok g →
          g.cf.ReturnType = fconf.ReturnType) ∧
      generateFunction eng config fname fconf ≠
          Except.error GenError.returnTypeNotInferred ∧
      ∀ g, generateFunction eng config fname fconf = Except.ok g →
        g.cf.ReturnType = fconf.ReturnType) ∧
    (config.IsDefined ["function", fname, "var_args"] = true →
      (∀ jsf tpt rt g, synthesize config fname fconf jsf tpt rt = Except.ok g →
        g.cf.Varargs = sprintBool fconf.VarArgs) ∧
      ∀ g, generateFunction eng config fname fconf = Except.ok g →
        g.cf.Varargs = sprintBool fconf.VarArgs) := by
  refine ⟨fun hd => ⟨fun jsf tpt rt => (synthesize_override _ _ _ jsf tpt rt).1 hd, ?_, ?_⟩,
    fun hd => ⟨fun jsf tpt rt => (synthesize_override _ _ _ jsf tpt rt).2.1 hd, ?_, ?_⟩,
    fun hd => ⟨fun jsf tpt rt => (synthesize_override _ _ _ jsf tpt rt).2.2 hd, ?_⟩⟩
  · intro h
    obtain ⟨jsf, inc, tpt, rt, _, hs⟩ := generateFunction_error _ _ _ _ _ (Or.inl rfl) h
    exact ((synthesize_override _ _ _ jsf tpt rt).1 hd).1 hs
  · intro g h
    obtain ⟨jsf, inc, tpt, rt, _, hs⟩ := generateFunction_ok _ _ _ _ _ h
    have := ((synthesize_override _ _ _ jsf tpt rt).1 hd).2 g hs
    exact this
  · intro h
    obtain ⟨jsf, inc, tpt, rt, _, hs⟩ := generateFunction_error _ _ _ _ _ (Or.inr rfl) h
    exact ((synthesize_override _ _ _ jsf tpt rt).2.1 hd).1 hs
  · intro g h
    obtain ⟨jsf, inc, tpt, rt, _, hs⟩ := generateFunction_ok _ _ _ _ _ h
    have := ((synthesize_override _ _ _ jsf tpt rt).2.1 hd).2 g hs
    exact this
  · intro g h
    obtain ⟨jsf, inc, tpt, rt, _, hs⟩ := generateFunction_ok _ _ _ _ _ h
    have := (synthesize_override _ _ _ jsf tpt rt).2.2 hd g hs
    exact this

/-- Witness of C5: `sum` has `var_args = false` written in the file and test calls
with two and with three arguments; inference says `vararg = true`, the emitted
value is `false`. -/
theorem override_wins_witness :
    (analyzeParamTypes [[TypeNumber, TypeNumber], [TypeNumber, TypeNumber, TypeNumber]]).2
      = true ∧
    ∃ g, generateFunction demoEngine varArgsConfig "sum" sumDef = Except.ok g ∧
      g.cf.Varargs = "false" :=
  ⟨by decide, _, rfl, (override_wins demoEngine varArgsConfig "sum" sumDef).2.2 rfl |>.2 _ rfl⟩

/-- Counterexample to C6 as stated: `f(a, b)` with the one test `f(1)` and no
override is finalized without error, and its declared parameters `a` and `b` are
both left `Unknown`; the emitted parameter types are `Number`. -/
theorem declared_parameter_left_unknown :
    plainConfig.IsDefined ["function", "f", "parameter_types"] = false ∧
    ∃ g, generateFunction demoEngine plainConfig "f" fDef = Except.ok g ∧
      g.jsf.Params = [JSParam.mk "a" TypeUnknown, JSParam.mk "b" TypeUnknown] ∧
      (∃ p ∈ g.jsf.Params, ¬ Concrete p.Typ) ∧
      g.cf.ParameterTypes = "Number" :=
  ⟨rfl, _, rfl, rfl, ⟨JSParam.mk "b" TypeUnknown, by decide, by decide⟩, rfl⟩

/-- C6, amended: when `generate` finalizes a function without error, the declared
parameter names are kept; without a `parameter_types` override every consolidated
parameter type is a concrete tag, and the declared parameters are bound to these
types when their number equals the number of consolidated types; without a
`return_type` override the return type is the merged return tag, it is concrete,
and its name is emitted. -/
theorem generate_signature_concrete {σ : Type} (eng : Engine σ) (config : Config)
    (fname : String) (fconf : Function) (g : Generated)
    (h : generateFunction eng config fname fconf = Except.ok g) :
    ∃ jsf includes tpt rt, Observed eng fname fconf jsf includes tpt rt ∧
      g.jsf.Params.map JSParam.Name = jsf.Params.map JSParam.Name ∧
      (config.IsDefined ["function", fname, "parameter_types"] = false →
        (∀ t ∈ (analyzeParamTypes tpt).1, Concrete t) ∧
        (jsf.Params.length = (analyzeParamTypes tpt).1.length →
          g.jsf.Params.map JSParam.Typ = (analyzeParamTypes tpt).1)) ∧
      (config.IsDefined ["function", fname, "return_type"] = false →
        g.jsf.ReturnType = rt ∧ Concrete rt ∧ g.cf.ReturnType = rt.String) := by
  obtain ⟨jsf, inc, tpt, rt, hobs, hs⟩ := generateFunction_ok _ _ _ _ _ h
  obtain ⟨f₁, f₂, h₁, h₂, rfl⟩ := synthesize_ok _ _ _ _ _ _ _ hs
  refine ⟨jsf, inc, tpt, rt, hobs, bindParams_names _ _, fun hd => ⟨?_, ?_⟩, fun hd => ?_⟩
  · intro t ht
    constructor
    · rintro rfl
      have := h₁.symm.trans ((parameterStep_error_iff _ _ _ _
        GenError.parameterTypesNotInferred).mpr ⟨hd, ht, rfl⟩)
      cases this
    · rintro rfl
      exact analyzeParamTypes_no_undecidable tpt ht
  · intro hlen
    exact bindParams_types _ _ hlen
  · obtain ⟨hc, hr⟩ := (returnStep_ok_fields _ _ _ _ _ h₂).2.2.1 hd
    exact ⟨rfl, hc, hr⟩

/-- Witness of C6, amended: `sum(a, b)` with the tests `sum(1, 2)` and
`sum(1, 2, 3)` and no override. -/
theorem generate_signature_concrete_witness :
    ∃ g, generateFunction demoEngine plainConfig "sum" sumDef = Except.ok g ∧
      ∃ jsf includes tpt rt, Observed demoEngine "sum" sumDef jsf includes tpt rt ∧
        g.jsf.Params.map JSParam.Name = jsf.Params.map JSParam.Name ∧
        (plainConfig.IsDefined ["function", "sum", "parameter_types"] = false →
          (∀ t ∈ (analyzeParamTypes tpt).1, Concrete t) ∧
          (jsf.Params.length = (analyzeParamTypes tpt).1.length →
            g.jsf.Params.map JSParam.Typ = (analyzeParamTypes tpt).1)) ∧
        (plainConfig.IsDefined ["function", "sum", "return_type"] = false →
          g.jsf.ReturnType = rt ∧ Concrete rt ∧ g.cf.ReturnType = rt.String) :=
  ⟨_, rfl, generate_signature_concrete demoEngine plainConfig "sum" sumDef _ rfl⟩

/-- C7: without a `parameter_types` override the parameter step fails with the
error of uninferred parameter types exactly when a consolidated parameter type is
`Unknown`, as a step and within the whole synthesis; test observations
`[String, X]` and `[String, Y]` with distinct concrete `X` and `Y` consolidate to
`[String, Unknown]` and the function is rejected. -/
theorem parameter_step_fails_iff (config : Config) (fname : String) (fconf : Function)
    (h : config.IsDefined ["function", fname, "parameter_types"] = false) :
    (∀ pt : JSParamTypes,
      parameterStep config fname fconf pt = Except.error GenError.parameterTypesNotInferred ↔
        TypeUnknown ∈ pt) ∧
    (∀ (jsf : JSFunction) (tpt : List JSParamTypes) (rt : JSParamType),
      synthesize config fname fconf jsf tpt rt =
          Except.error GenError.parameterTypesNotInferred ↔
        TypeUnknown ∈ (analyzeParamTypes tpt).1) ∧
    (∀ X Y : JSParamType, Concrete X → Concrete Y → X ≠ Y →
      (analyzeParamTypes [[TypeString, X], [TypeString, Y]]).1 = [TypeString, TypeUnknown] ∧
      ∀ (jsf : JSFunction) (rt : JSParamType),
        synthesize config fname fconf jsf [[TypeString, X], [TypeString, Y]] rt =
          Except.error GenError.parameterTypesNotInferred) := by
  have hstep : ∀ (f : Function) (pt : JSParamTypes),
      parameterStep config fname f pt = Except.error GenError.parameterTypesNotInferred ↔
        TypeUnknown ∈ pt := by
    intro f pt
    rw [parameterStep_error_iff]
    exact ⟨fun hh => hh.2.1, fun hh => ⟨h, hh, rfl⟩⟩
  have hsynth : ∀ (jsf : JSFunction) (tpt : List JSParamTypes) (rt : JSParamType),
      synthesize config fname fconf jsf tpt rt =
          Except.error GenError.parameterTypesNotInferred ↔
        TypeUnknown ∈ (analyzeParamTypes tpt).1 := by
    intro jsf tpt rt
    constructor
    · intro hs
      rcases synthesize_error _ _ _ _ _ _ _ hs with h₁ | ⟨f₁, _, h₂⟩
      · exact (hstep _ _).mp h₁
      · have := ((returnStep_error_iff _ _ _ _ _).mp h₂).2.2
        cases this
    · intro hm
      rw [synthesize_eq, (hstep _ _).mpr hm]
  have hcol : ∀ X Y : JSParamType, Concrete X → Concrete Y → X ≠ Y →
      (analyzeParamTypes [[TypeString, X], [TypeString, Y]]).1
        = [TypeString, TypeUnknown] := by
    decide
  refine ⟨hstep fconf, hsynth, ?_⟩
  intro X Y hX hY hne
  refine ⟨hcol X Y hX hY hne, fun jsf rt => ?_⟩
  rw [hsynth, hcol X Y hX hY hne]
  decide

/-- Witness of C7: the function `f` without overrides, at `X = Number` and
`Y = Boolean`. -/
theorem parameter_step_fails_iff_witness :
    (analyzeParamTypes [[TypeString, TypeNumber], [TypeString, TypeBoolean]]).1
      = [TypeString, TypeUnknown] ∧
    ∀ (jsf : JSFunction) (rt : JSParamType),
      synthesize plainConfig "f" fDef jsf [[TypeString, TypeNumber], [TypeString, TypeBoolean]]
        rt = Except.error GenError.parameterTypesNotInferred :=
  (parameter_step_fails_iff plainConfig "f" fDef rfl).2.2 TypeNumber TypeBoolean
    (by decide) (by decide) (by decide)

/-- C8: without a `return_type` override, once the parameter step has passed, the
synthesis fails with the error of an uninferred return type exactly when the merged
return tag is `Unknown` or `Undecidable`, and otherwise it emits the name of that
tag.  A function whose only test expects an error gets `Unknown` from that test
when it passes, and is not finalized. -/
theorem return_step_fails_iff (config : Config) (fname : String) (fconf : Function)
    (h : config.IsDefined ["function", fname, "return_type"] = false) :
    (∀ (jsf : JSFunction) (tpt : List JSParamTypes) (rt : JSParamType) (f₁ : Function),
      parameterStep config fname
          (varArgsStep config fname fconf (inferredSignature jsf tpt rt))
          (analyzeParamTypes tpt).1 = Except.ok f₁ →
      (synthesize config fname fconf jsf tpt rt = Except.error GenError.returnTypeNotInferred ↔
        (rt = TypeUnknown ∨ rt = TypeUndecidable)) ∧
      (¬ (rt = TypeUnknown ∨ rt = TypeUndecidable) →
        ∃ g, synthesize config fname fconf jsf tpt rt = Except.ok g ∧
          g.cf.ReturnType = rt.String)) ∧
    (∀ {σ : Type} (eng : Engine σ) (t : Test), fconf.Tests = [t] → t.Error = true →
      (∀ (source includes : String) (r : JSParamType),
        executeTest eng source includes t = Except.ok r → r = TypeUnknown) ∧
      (∀ (includes : String) (tpt : List JSParamTypes) (rt : JSParamType),
        testLoop eng fname { fconf with IncludesCompiled := includes } fconf.Tests 0
          ([], TypeUnknown) = Except.ok (tpt, rt) → rt = TypeUnknown) ∧
      ∀ g, generateFunction eng config fname fconf ≠ Except.ok g) := by
  constructor
  · intro jsf tpt rt f₁ h₁
    constructor
    · constructor
      · intro hs
        rcases synthesize_error _ _ _ _ _ _ _ hs with h₂ | ⟨f, _, h₂⟩
        · rw [h₁] at h₂
          cases h₂
        · exact ((returnStep_error_iff _ _ _ _ _).mp h₂).2.1
      · intro hrt
        have h₂ := (returnStep_error_iff config fname f₁ (inferredSignature jsf tpt rt)
          GenError.returnTypeNotInferred).mpr ⟨h, hrt, rfl⟩
        rw [synthesize_eq, h₁]
        simp only [h₂]
    · intro hrt
      cases h₂ : returnStep config fname f₁ (inferredSignature jsf tpt rt) with
      | error e =>
        exact absurd ((returnStep_error_iff _ _ _ _ _).mp h₂).2.1 hrt
      | ok f₂ =>
        refine ⟨{ jsf := inferredSignature jsf tpt rt, fconf := f₂,
                  cf := emit config fname f₂ }, ?_, ?_⟩
        · rw [synthesize_eq, h₁]
          simp only [h₂]
        · exact ((returnStep_ok_fields _ _ _ _ _ h₂).2.2.1 h).2
  · intro σ eng t htests hterr
    have hloop : ∀ (includes : String) (tpt : List JSParamTypes) (rt : JSParamType),
        testLoop eng fname { fconf with IncludesCompiled := includes } fconf.Tests 0
          ([], TypeUnknown) = Except.ok (tpt, rt) → rt = TypeUnknown := by
      intro includes tpt rt hl
      rw [htests] at hl
      exact testLoop_single_error_flag eng fname _ t hterr 0 [] tpt rt hl
    refine ⟨fun source includes r hr =>
      executeTest_error_flag_unknown eng source includes t hterr r hr, hloop, ?_⟩
    intro g hg
    obtain ⟨jsf, inc, tpt, rt, hobs, hs⟩ := generateFunction_ok _ _ _ _ _ hg
    have hrt := hloop inc tpt rt hobs.2.2
    obtain ⟨f₁, f₂, _, h₂, _⟩ := synthesize_ok _ _ _ _ _ _ _ hs
    have hc := ((returnStep_ok_fields _ _ _ _ _ h₂).2.2.1 h).1
    exact hc.1 hrt

/-- Witness of C8: `greet(name)` with the one test `greet("x")` expecting an error.
Without overrides it is rejected for its return type; with `return_type` written
as `String` it is finalized. -/
theorem return_step_fails_iff_witness :
    generateFunction demoEngine plainConfig "greet" greetDef =
      Except.error GenError.returnTypeNotInferred ∧
    (∀ g, generateFunction demoEngine plainConfig "greet" greetDef ≠ Except.ok g) ∧
    ∃ g, generateFunction demoEngine returnTypeConfig "greet" greetDef = Except.ok g ∧
      g.cf.ReturnType = "String" ∧ g.cf.ParameterTypes = "String" :=
  ⟨rfl,
   ((return_step_fails_iff plainConfig "greet" greetDef rfl).2 demoEngine
      (Test.mk "greet(\"x\")" none true false) rfl rfl).2.2,
   _, rfl, rfl, rfl⟩

/-! ## Claims on classification and on the test executor -/

/-- C9: `Long`, `Host` and `Port` never come from inference.  `reflectJSParamType`
returns none of them for any kind, the classification of a call argument returns
none of them for any expression, so neither do `parseCall` and `executeTest`; for
every list of tests the merged return tag and the consolidated parameter types
hold none of them; and what `generate` emits without an override is the name of
`String`, `Number` or `Boolean` for the return type, and for the parameter types
either the text left by the file or the names of such tags joined by blanks. -/
theorem long_host_port_never_inferred :
    (∀ k : Option Kind, Inferable (reflectJSParamType k)) ∧
    (∀ e : Expression, Inferable (classifyArgument e)) ∧
    (∀ (ParseFile : String → String → Except String Program) (name src : String)
        (call : JSCall), parseCall ParseFile name src = Except.ok call →
      ∀ t ∈ call.ParamTypes, Inferable t) ∧
    (∀ {σ : Type} (eng : Engine σ) (source includes : String) (test : Test)
        (r : JSParamType), executeTest eng source includes test = Except.ok r →
      Inferable r) ∧
    (∀ {σ : Type} (eng : Engine σ) (fname : String) (fconf : Function) (tests : List Test)
        (tpt : List JSParamTypes) (rt : JSParamType),
      testLoop eng fname fconf tests 0 ([], TypeUnknown) = Except.ok (tpt, rt) →
      Inferable rt ∧ ∀ t ∈ (analyzeParamTypes tpt).1, Inferable t) ∧
    (∀ {σ : Type} (eng : Engine σ) (config : Config) (fname : String) (fconf : Function)
        (g : Generated), generateFunction eng config fname fconf = Except.ok g →
      (config.IsDefined ["function", fname, "return_type"] = false →
        g.cf.ReturnType ∈ ["String", "Number", "Boolean"]) ∧
      (config.IsDefined ["function", fname, "parameter_types"] = false →
        g.cf.ParameterTypes = fconf.ParameterTypes ∨
        ∃ pt : JSParamTypes,
          (∀ t ∈ pt, t = TypeString ∨ t = TypeNumber ∨ t = TypeBoolean) ∧
          g.cf.ParameterTypes = String.intercalate " " (pt.map JSParamType.String))) := by
  have hloop : ∀ {σ : Type} (eng : Engine σ) (fname : String) (fconf : Function)
      (tests : List Test) (tpt : List JSParamTypes) (rt : JSParamType),
      testLoop eng fname fconf tests 0 ([], TypeUnknown) = Except.ok (tpt, rt) →
      Inferable rt ∧ ∀ t ∈ (analyzeParamTypes tpt).1, Inferable t := by
    intro σ eng fname fconf tests tpt rt hl
    obtain ⟨h₁, h₂⟩ := testLoop_inferable eng fname fconf tests 0 ([], TypeUnknown) (tpt, rt)
      (by simp) (by decide) hl
    exact ⟨h₂, analyzeParamTypes_inferable tpt h₁⟩
  refine ⟨reflectJSParamType_inferable, classifyArgument_inferable, parseCall_inferable,
    fun eng source includes test r hr => executeTest_inferable eng source includes test r hr,
    hloop, ?_⟩
  intro σ eng config fname fconf g hg
  obtain ⟨jsf, inc, tpt, rt, hobs, hs⟩ := generateFunction_ok _ _ _ _ _ hg
  obtain ⟨hrt, hpt⟩ := hloop eng fname _ _ tpt rt hobs.2.2
  obtain ⟨f₁, f₂, h₁, h₂, rfl⟩ := synthesize_ok _ _ _ _ _ _ _ hs
  constructor
  · intro hd
    obtain ⟨hc, hr⟩ := (returnStep_ok_fields _ _ _ _ _ h₂).2.2.1 hd
    simp only [emit]
    rw [hr]
    exact inferable_concrete_name rt hrt hc
  · intro hd
    have hknown : ∀ t ∈ (analyzeParamTypes tpt).1, Concrete t := by
      intro t ht
      constructor
      · rintro rfl
        have := h₁.symm.trans ((parameterStep_error_iff _ _ _ _
          GenError.parameterTypesNotInferred).mpr ⟨hd, ht, rfl⟩)
        cases this
      · rintro rfl
        exact analyzeParamTypes_no_undecidable tpt ht
    have hf₂ : (emit config fname f₂).ParameterTypes = f₁.ParameterTypes :=
      (returnStep_ok_fields _ _ _ _ _ h₂).1
    rcases parameterStep_ok_types _ _ _ _ _ hd h₁ with hsame | ⟨pt', hsub, hjoin⟩
    · left
      rw [hf₂, hsame]
      exact (varArgsStep_fields _ _ _ _).1
    · right
      refine ⟨pt', fun t ht => ?_, ?_⟩
      · exact inferable_concrete_cases t (hpt t (hsub t ht)) (hknown t (hsub t ht))
      · rw [hf₂, hjoin]

/-- C10: for a test that expects an error, `executeTest` passes exactly when the
includes and the function source run without error and the call raises an error,
and the tag it then returns is `Unknown`; a failing includes step or source step is
an error of `executeTest`, and so is a call that succeeds. -/
theorem executeTest_expect_error {σ : Type} (eng : Engine σ) (source includes : String)
    (test : Test) (h : test.Error = true) :
    ((∃ r, executeTest eng source includes test = Except.ok r) ↔
      ∃ v₁ s₁ v₂ s₂ err s₃,
        eng.RunString eng.New includes = (Except.ok v₁, s₁) ∧
        eng.RunString s₁ source = (Except.ok v₂, s₂) ∧
        eng.RunString s₂ test.Call = (Except.error err, s₃)) ∧
    (∀ r, executeTest eng source includes test = Except.ok r → r = TypeUnknown) ∧
    (∀ err s, eng.RunString eng.New includes = (Except.error err, s) →
      executeTest eng source includes test = Except.error (TestError.failedIncludes err)) ∧
    (∀ v₁ s₁ err s, eng.RunString eng.New includes = (Except.ok v₁, s₁) →
      eng.RunString s₁ source = (Except.error err, s) →
      executeTest eng source includes test = Except.error (TestError.failedSource err)) ∧
    (∀ v₁ s₁ v₂ s₂ v s₃, eng.RunString eng.New includes = (Except.ok v₁, s₁) →
      eng.RunString s₁ source = (Except.ok v₂, s₂) →
      eng.RunString s₂ test.Call = (Except.ok v, s₃) →
      executeTest eng source includes test = Except.error TestError.supposedToFail) := by
  rw [executeTest_of_error_flag eng source includes test h]
  refine ⟨?_, ?_, ?_, ?_, ?_⟩
  · constructor
    · rintro ⟨r, hr⟩
      split at hr
      · cases hr
      · rename_i v₁ s₁ h₁
        split at hr
        · cases hr
        · rename_i v₂ s₂ h₂
          split at hr
          · rename_i err s₃ h₃
            exact ⟨v₁, s₁, v₂, s₂, err, s₃, h₁, h₂, h₃⟩
          · cases hr
    · rintro ⟨v₁, s₁, v₂, s₂, err, s₃, h₁, h₂, h₃⟩
      exact ⟨TypeUnknown, by simp only [h₁, h₂, h₃]⟩
  · intro r hr
    split at hr
    · cases hr
    · split at hr
      · cases hr
      · split at hr
        · cases hr; rfl
        · cases hr
  · intro err s h₁
    simp only [h₁]
  · intro v₁ s₁ err s h₁ h₂
    simp only [h₁, h₂]
  · intro v₁ s₁ v₂ s₂ v s₃ h₁ h₂ h₃
    simp only [h₁, h₂, h₃]

/-- Witness of C10: the test `greet("x")` expecting an error, on the example
engine, where the call throws. -/
theorem executeTest_expect_error_witness :
    executeTest demoEngine greetDef.Source "" (Test.mk "greet(\"x\")" none true false)
      = Except.ok TypeUnknown ∧
    ∀ r, executeTest demoEngine greetDef.Source "" (Test.mk "greet(\"x\")" none true false)
      = Except.ok r → r = TypeUnknown :=
  ⟨rfl, (executeTest_expect_error demoEngine greetDef.Source ""
    (Test.mk "greet(\"x\")" none true false) rfl).2.1⟩

/-! ## The executor on a call that succeeds -/

theorem executeTest_of_steps {σ : Type} (eng : Engine σ) (source includes : String)
    (test : Test) (v₁ v₂ v : Value) (s₁ s₂ s₃ : σ)
    (h₁ : eng.RunString eng.New includes = (Except.ok v₁, s₁))
    (h₂ : eng.RunString s₁ source = (Except.ok v₂, s₂))
    (h₃ : eng.RunString s₂ test.Call = (Except.ok v, s₃)) :
    executeTest eng source includes test =
      if test.Error then Except.error TestError.supposedToFail
      else if test.Null ∧ v.Export ≠ none then
        Except.error (TestError.expectedNull (sprintV v.Export))
      else if sprintV test.Expect ≠ sprintV v.Export then
        Except.error (TestError.unexpectedResult (sprintV test.Expect) (sprintV v.Export))
      else Except.ok (reflectJSParamType v.ExportType) := by
  unfold executeTest
  simp only [h₁, h₂, h₃]

/-- Counterexample to C11 as stated: on the example engine the call `void 0`
returns `undefined`, whose export is nil.  With `null = true` and no expected
value the test passes; with `null = true` and the expected value 3 the same call
fails on the comparison of the display strings, `3` against `<nil>`. -/
theorem expect_null_still_compares :
    (demoEngine.RunString demoEngine.New "void 0").1 = Except.ok (Value.mk none none) ∧
    executeTest demoEngine "" "" (Test.mk "void 0" none false true)
      = Except.ok TypeUnknown ∧
    executeTest demoEngine "" "" (Test.mk "void 0" (some (GoValue.mk "3")) false true)
      = Except.error (TestError.unexpectedResult "3" "<nil>") :=
  ⟨rfl, rfl, rfl⟩

/-- C11, amended: for a test with `null` set and `error` not set whose includes,
source and call steps succeed, `executeTest` passes exactly when the returned value
exports to nil and the display string of the expected value is the display string
of nil, `<nil>`, as it is for a test without expected value; the tag it returns is
then the classifier's tag of the returned value. -/
theorem executeTest_expect_null {σ : Type} (eng : Engine σ) (source includes : String)
    (test : Test) (v₁ v₂ v : Value) (s₁ s₂ s₃ : σ)
    (hnull : test.Null = true) (herr : test.Error = false)
    (h₁ : eng.RunString eng.New includes = (Except.ok v₁, s₁))
    (h₂ : eng.RunString s₁ source = (Except.ok v₂, s₂))
    (h₃ : eng.RunString s₂ test.Call = (Except.ok v, s₃)) :
    ((∃ r, executeTest eng source includes test = Except.ok r) ↔
      (v.Export = none ∧ sprintV test.Expect = "<nil>")) ∧
    (∀ r, executeTest eng source includes test = Except.ok r →
      r = reflectJSParamType v.ExportType) ∧
    (test.Expect = none →
      ((∃ r, executeTest eng source includes test = Except.ok r) ↔ v.Export = none)) := by
  rw [executeTest_of_steps eng source includes test v₁ v₂ v s₁ s₂ s₃ h₁ h₂ h₃]
  rw [if_neg (by simp [herr])]
  by_cases hv : v.Export = none
  · have hs : sprintV v.Export = "<nil>" := by rw [hv]; rfl
    rw [if_neg (fun hc => hc.2 hv), hs]
    by_cases he : sprintV test.Expect = "<nil>"
    · rw [if_neg (fun hc => hc he)]
      exact ⟨⟨fun _ => ⟨hv, he⟩, fun _ => ⟨_, rfl⟩⟩, fun r hr => by cases hr; rfl,
        fun _ => ⟨fun _ => hv, fun _ => ⟨_, rfl⟩⟩⟩
    · rw [if_pos he]
      refine ⟨⟨?_, fun hc => absurd hc.2 he⟩, ?_, fun hn => absurd (by rw [hn]; rfl) he⟩
      · rintro ⟨r, hr⟩
        cases hr
      · intro r hr
        cases hr
  · rw [if_pos ⟨hnull, hv⟩]
    refine ⟨⟨?_, fun hc => absurd hc.1 hv⟩, ?_, fun _ => ⟨?_, fun hc => absurd hc hv⟩⟩
    · rintro ⟨r, hr⟩
      cases hr
    · intro r hr
      cases hr
    · rintro ⟨r, hr⟩
      cases hr

/-- Witness of C11, amended: the call `void 0` on the example engine, under a
test with `null = true` and no expected value. -/
theorem executeTest_expect_null_witness :
    ((∃ r, executeTest demoEngine "" "" (Test.mk "void 0" none false true) = Except.ok r) ↔
      ((Value.mk none none).Export = none ∧
        sprintV (Test.mk "void 0" none false true).Expect = "<nil>")) :=
  (executeTest_expect_null demoEngine "" "" (Test.mk "void 0" none false true)
    (Value.mk none none) (Value.mk none none) (Value.mk none none) () () ()
    rfl rfl rfl rfl rfl).1

/-- C12: for a test with neither `error` nor `null` set whose includes, source and
call steps succeed, `executeTest` passes exactly when the display string of the
returned value equals the display string of the expected value, and the tag it
then returns is `reflectJSParamType` of the returned value. -/
theorem executeTest_expect_value {σ : Type} (eng : Engine σ) (source includes : String)
    (test : Test) (v₁ v₂ v : Value) (s₁ s₂ s₃ : σ)
    (hnull : test.Null = false) (herr : test.Error = false)
    (h₁ : eng.RunString eng.New includes = (Except.ok v₁, s₁))
    (h₂ : eng.RunString s₁ source = (Except.ok v₂, s₂))
    (h₃ : eng.RunString s₂ test.Call = (Except.ok v, s₃)) :
    ((∃ r, executeTest eng source includes test = Except.ok r) ↔
      sprintV v.Export = sprintV test.Expect) ∧
    (∀ r, executeTest eng source includes test = Except.ok r →
      r = reflectJSParamType v.ExportType) ∧
    (sprintV v.Export = sprintV test.Expect →
      executeTest eng source includes test = Except.ok (reflectJSParamType v.ExportType)) ∧
    (sprintV v.Export ≠ sprintV test.Expect →
      executeTest eng source includes test =
        Except.error (TestError.unexpectedResult (sprintV test.Expect) (sprintV v.Export))) := by
  rw [executeTest_of_steps eng source includes test v₁ v₂ v s₁ s₂ s₃ h₁ h₂ h₃]
  simp only [hnull, herr, Bool.false_eq_true, if_false, false_and]
  by_cases he : sprintV test.Expect = sprintV v.Export
  · simp [he]
  · have he' : ¬ sprintV v.Export = sprintV test.Expect := fun h => he h.symm
    simp [he, he']

/-- Witness of C12: the test `f(1)` expecting 1 on the example engine. -/
theorem executeTest_expect_value_witness :
    executeTest demoEngine fDef.Source "" (Test.mk "f(1)" (some (GoValue.mk "1")) false false)
      = Except.ok (reflectJSParamType (some Kind.Int64)) :=
  (executeTest_expect_value demoEngine fDef.Source ""
    (Test.mk "f(1)" (some (GoValue.mk "1")) false false)
    (Value.mk none none) (Value.mk none none)
    (Value.mk (some (GoValue.mk "1")) (some Kind.Int64)) () () ()
    rfl rfl rfl rfl rfl).2.2.1 rfl

/-! ## Claims on the call-site parser -/

theorem findCall_ok (name : String) (body : List Statement) :
    ∀ call : JSCall, findCall name body = Except.ok call →
      ∃ pre args post,
        body = pre ++ Statement.ExpressionStatement
          (Expression.CallExpression (Expression.Identifier name) args) :: post ∧
        (∀ args', Statement.ExpressionStatement
          (Expression.CallExpression (Expression.Identifier name) args') ∉ pre) ∧
        call = { Name := name, ParamTypes := args.map classifyArgument } := by
  induction body with
  | nil => intro call h; simp [findCall] at h
  | cons stmt body ih =>
    intro call h
    have hskip : findCall name body = Except.ok call →
        (∀ args', stmt ≠ Statement.ExpressionStatement
          (Expression.CallExpression (Expression.Identifier name) args')) →
        ∃ pre args post,
          stmt :: body = pre ++ Statement.ExpressionStatement
            (Expression.CallExpression (Expression.Identifier name) args) :: post ∧
          (∀ args', Statement.ExpressionStatement
            (Expression.CallExpression (Expression.Identifier name) args') ∉ pre) ∧
          call = { Name := name, ParamTypes := args.map classifyArgument } := by
      intro hb hne
      obtain ⟨pre, args, post, hbody, hfirst, hcall⟩ := ih call hb
      refine ⟨stmt :: pre, args, post, by rw [hbody]; rfl, ?_, hcall⟩
      intro args' hmem
      rcases List.mem_cons.mp hmem with heq | hmem
      · exact hne args' heq.symm
      · exact hfirst args' hmem
    cases stmt with
    | Other n =>
      simp only [findCall] at h
      exact hskip h (fun _ hc => by cases hc)
    | ExpressionStatement e =>
      cases e with
      | CallExpression callee args =>
        cases callee with
        | Identifier idName =>
          simp only [findCall] at h
          split at h
          · rename_i hne
            refine hskip h (fun args' hc => ?_)
            cases hc
            exact hne rfl
          · rename_i heq
            have heq' : idName = name := by
              by_contra hc
              exact heq hc
            subst heq'
            cases h
            exact ⟨[], args, body, rfl, fun _ hm => by simp at hm, rfl⟩
        | _ =>
          simp only [findCall] at h
          exact hskip h (fun _ hc => by cases hc)
      | _ =>
        simp only [findCall] at h
        exact hskip h (fun _ hc => by cases hc)

/-- C13: for every call matched by `parseCall`, the first expression statement of
the program that calls the identifier `name`, the returned tags are one per
argument, in argument order, each fixed by the node type of the argument alone: a
string literal, an identifier or a regular expression literal gives `String`, a
number literal `Number`, a boolean literal `Boolean`, and every other node type
gives `Unknown`.  A template literal is no node type of the parser: a call text
with one does not parse, so no matched call has one among its arguments. -/
theorem parseCall_classifies (ParseFile : String → String → Except String Program)
    (name src : String) (call : JSCall)
    (h : parseCall ParseFile name src = Except.ok call) :
    (∃ program pre args post,
      ParseFile (name ++ ".js") src = Except.ok program ∧
      program.Body = pre ++ Statement.ExpressionStatement
        (Expression.CallExpression (Expression.Identifier name) args) :: post ∧
      (∀ args', Statement.ExpressionStatement
        (Expression.CallExpression (Expression.Identifier name) args') ∉ pre) ∧
      call.Name = name ∧
      call.ParamTypes.length = args.length ∧
      call.ParamTypes = args.map classifyArgument) ∧
    classifyArgument Expression.StringLiteral = TypeString ∧
    (∀ n, classifyArgument (Expression.Identifier n) = TypeString) ∧
    classifyArgument Expression.RegExpLiteral = TypeString ∧
    classifyArgument Expression.NumberLiteral = TypeNumber ∧
    classifyArgument Expression.BooleanLiteral = TypeBoolean ∧
    (∀ callee args, classifyArgument (Expression.CallExpression callee args) = TypeUnknown) ∧
    (∀ n, classifyArgument (Expression.Other n) = TypeUnknown) := by
  refine ⟨?_, rfl, fun _ => rfl, rfl, rfl, rfl, fun _ _ => rfl, fun _ => rfl⟩
  unfold parseCall at h
  split at h
  · cases h
  · rename_i program hp
    obtain ⟨pre, args, post, hbody, hfirst, rfl⟩ := findCall_ok name _ call h
    exact ⟨program, pre, args, post, hp, hbody, hfirst, rfl, by simp, rfl⟩

/-- Witness of C13: the test call `sum(1, 2, 3)` on the example parser. -/
theorem parseCall_classifies_witness :
    parseCall demoEngine.ParseFile "sum" "sum(1, 2, 3)"
      = Except.ok { Name := "sum", ParamTypes := [TypeNumber, TypeNumber, TypeNumber] } ∧
    classifyArgument Expression.NumberLiteral = TypeNumber :=
  ⟨rfl, (parseCall_classifies demoEngine.ParseFile "sum" "sum(1, 2, 3)"
    { Name := "sum", ParamTypes := [TypeNumber, TypeNumber, TypeNumber] } rfl).2.2.2.2.1⟩

/-! ## Claims on the emitted parameter types -/

theorem parameterStep_ok_known (config : Config) (fname : String) (fconf : Function)
    (pt : JSParamTypes)
    (hd : config.IsDefined ["function", fname, "parameter_types"] = false)
    (hne : pt ≠ []) (hk : JSParamTypes.allKnown pt = true) :
    parameterStep config fname fconf pt =
      Except.ok { fconf with ParameterTypes :=
        if fconf.VarArgs then (pt.head hne).String
        else String.intercalate " " (pt.map JSParamType.String) } := by
  unfold parameterStep
  have hd' : ¬ config.IsDefined ["function", fname, "parameter_types"] = true := by
    simp [hd]
  have hlen : pt.length > 0 := List.length_pos.mpr hne
  rw [if_pos hd', if_pos hk, if_pos hlen]
  cases pt with
  | nil => exact absurd rfl hne
  | cons t ts =>
    by_cases hv : fconf.VarArgs = true
    · simp [hv, JSParamTypes.toStringSlice]
    · simp [hv, JSParamTypes.toStringSlice]

theorem varArgsStep_VarArgs (config : Config) (fname : String) (fconf : Function)
    (jsf : JSFunction) (tpt : List JSParamTypes) (rt : JSParamType) :
    (varArgsStep config fname fconf (inferredSignature jsf tpt rt)).VarArgs =
      varArgsInEffect config fname fconf tpt := by
  unfold varArgsStep varArgsInEffect
  by_cases hd : config.IsDefined ["function", fname, "var_args"] = true
  · simp [hd]
  · simp [hd, inferredSignature]

/-- C14: without a `parameter_types` override, when there is at least one
consolidated parameter type and all are known, a function that `generate`
finalizes is emitted with the name of the first consolidated type when it is
variadic, by the written `var_args` or else by the inferred flag, and with the
names of all consolidated types in order, joined by single blanks, when it is
not; the emitted `varargs` is that flag. -/
theorem emitted_parameter_types (config : Config) (fname : String) (fconf : Function)
    (jsf : JSFunction) (tpt : List JSParamTypes) (rt : JSParamType) (g : Generated)
    (hd : config.IsDefined ["function", fname, "parameter_types"] = false)
    (hne : (analyzeParamTypes tpt).1 ≠ [])
    (hk : JSParamTypes.allKnown (analyzeParamTypes tpt).1 = true)
    (hs : synthesize config fname fconf jsf tpt rt = Except.ok g) :
    g.cf.Varargs = sprintBool (varArgsInEffect config fname fconf tpt) ∧
    (varArgsInEffect config fname fconf tpt = true →
      g.cf.ParameterTypes = ((analyzeParamTypes tpt).1.head hne).String) ∧
    (varArgsInEffect config fname fconf tpt = false →
      g.cf.ParameterTypes =
        String.intercalate " " ((analyzeParamTypes tpt).1.map JSParamType.String)) := by
  obtain ⟨f₁, f₂, h₁, h₂, rfl⟩ := synthesize_ok _ _ _ _ _ _ _ hs
  rw [parameterStep_ok_known config fname _ _ hd hne hk] at h₁
  cases h₁
  obtain ⟨hp, hv, _, _⟩ := returnStep_ok_fields _ _ _ _ _ h₂
  simp only [emit, hp, hv, varArgsStep_VarArgs]
  refine ⟨trivial, fun hva => ?_, fun hva => ?_⟩
  · rw [if_pos hva]
  · rw [if_neg (by simp [hva])]

/-- Witness of C14: the observations `[Number, Number]` and
`[Number, Number, Number]` of `sum` without overrides give `vararg = true` and the
parameter types `Number`. -/
theorem emitted_parameter_types_witness :
    analyzeParamTypes [[TypeNumber, TypeNumber], [TypeNumber, TypeNumber, TypeNumber]]
      = ([TypeNumber, TypeNumber], true) ∧
    ∃ g, synthesize plainConfig "sum" sumDef (JSFunction.mk "sum" [] false TypeUnknown)
        [[TypeNumber, TypeNumber], [TypeNumber, TypeNumber, TypeNumber]] TypeNumber
        = Except.ok g ∧
      g.cf.Varargs = "true" ∧ g.cf.ParameterTypes = "Number" :=
  ⟨by decide, _, rfl,
    (emitted_parameter_types plainConfig "sum" sumDef (JSFunction.mk "sum" [] false TypeUnknown)
      [[TypeNumber, TypeNumber], [TypeNumber, TypeNumber, TypeNumber]] TypeNumber _
      rfl (by decide) rfl rfl).1,
    (emitted_parameter_types plainConfig "sum" sumDef (JSFunction.mk "sum" [] false TypeUnknown)
      [[TypeNumber, TypeNumber], [TypeNumber, TypeNumber, TypeNumber]] TypeNumber _
      rfl (by decide) rfl rfl).2.1 rfl⟩

/-! ## Rendering and splitting a list of type names -/

theorem intercalate_go_data (sep : String) :
    ∀ (l : List String) (acc : String),
      (String.intercalate.go acc sep l).data =
        acc.data ++ (l.map (fun a => sep.data ++ a.data)).flatten := by
  intro l
  induction l with
  | nil => intro acc; simp [String.intercalate.go]
  | cons a l ih =>
    intro acc
    simp [String.intercalate.go, ih, List.append_assoc]

theorem list_intercalate_cons {α : Type} (sep : List α) :
    ∀ (l : List (List α)) (a : List α),
      sep.intercalate (a :: l) = a ++ (l.map (fun b => sep ++ b)).flatten := by
  intro l
  induction l with
  | nil => intro a; simp [List.intercalate]
  | cons b l ih =>
    intro a
    have := ih b
    simp only [List.intercalate, List.intersperse] at this ⊢
    simp [this]

theorem intercalate_data (sep : String) (l : List String) (h : l ≠ []) :
    (String.intercalate sep l).data = sep.data.intercalate (l.map String.data) := by
  cases l with
  | nil => exact absurd rfl h
  | cons a l =>
    rw [List.map_cons, list_intercalate_cons]
    simp [String.intercalate, intercalate_go_data, List.map_map, Function.comp_def]

theorem stringsSplit_join (names : List String) (h : names ≠ [])
    (hblank : ∀ n ∈ names, ' ' ∉ n.data) :
    stringsSplit (String.intercalate " " names) ' ' = names := by
  unfold stringsSplit
  have hdata : (String.intercalate " " names).toList = [' '].intercalate (names.map String.data) :=
    intercalate_data " " names h
  rw [hdata, List.splitOn_intercalate]
  · simp [List.map_map, Function.comp_def]
  · intro l hl
    obtain ⟨n, hn, rfl⟩ := List.mem_map.mp hl
    exact hblank n hn
  · simpa using h

theorem name_without_blank : ∀ t : JSParamType, ' ' ∉ t.String.data := by
  decide

theorem name_injective : ∀ a b : JSParamType, Concrete a → Concrete b →
    a.String = b.String → a = b := by
  decide

theorem names_injective (l₁ : JSParamTypes) :
    ∀ l₂ : JSParamTypes, (∀ t ∈ l₁, Concrete t) → (∀ t ∈ l₂, Concrete t) →
      l₁.map JSParamType.String = l₂.map JSParamType.String → l₁ = l₂ := by
  induction l₁ with
  | nil =>
    intro l₂ _ _ h
    cases l₂ with
    | nil => rfl
    | cons b l₂ => simp at h
  | cons a l₁ ih =>
    intro l₂ h₁ h₂ h
    cases l₂ with
    | nil => simp at h
    | cons b l₂ =>
      simp only [List.map_cons, List.cons.injEq] at h
      have hab := name_injective a b (h₁ a (List.mem_cons_self a l₁))
        (h₂ b (List.mem_cons_self b l₂)) h.1
      have hrest := ih l₂ (fun t ht => h₁ t (List.mem_cons_of_mem a ht))
        (fun t ht => h₂ t (List.mem_cons_of_mem b ht)) h.2
      rw [hab, hrest]

/-- C15: for a non-empty sequence of domain type tags, joining the `String()`
names with single blanks and splitting the text on single blanks gives back one
name per tag in the same order, and the names determine the tags: a sequence of
domain tags whose rendering splits into the same names is the same sequence. -/
theorem render_split_roundtrip (tags : JSParamTypes) (hne : tags ≠ [])
    (hdom : ∀ t ∈ tags, Concrete t) :
    stringsSplit (String.intercalate " " (JSParamTypes.toStringSlice tags)) ' '
      = tags.map JSParamType.String ∧
    (stringsSplit (String.intercalate " " (JSParamTypes.toStringSlice tags)) ' ').length
      = tags.length ∧
    (∀ a b : JSParamType, Concrete a → Concrete b → a.String = b.String → a = b) ∧
    ∀ tags' : JSParamTypes, (∀ t ∈ tags', Concrete t) →
      tags'.map JSParamType.String =
        stringsSplit (String.intercalate " " (JSParamTypes.toStringSlice tags)) ' ' →
      tags' = tags := by
  have hsplit : stringsSplit (String.intercalate " " (JSParamTypes.toStringSlice tags)) ' '
      = tags.map JSParamType.String := by
    apply stringsSplit_join
    · simpa [JSParamTypes.toStringSlice] using hne
    · intro n hn
      obtain ⟨t, _, rfl⟩ := List.mem_map.mp hn
      exact name_without_blank t
  refine ⟨hsplit, by rw [hsplit, List.length_map], name_injective, ?_⟩
  intro tags' hdom' h
  rw [hsplit] at h
  exact names_injective tags' tags hdom' hdom h

/-- Witness of C15: the sequence `String`, `Long`, `Port`. -/
theorem render_split_roundtrip_witness :
    String.intercalate " " (JSParamTypes.toStringSlice [TypeString, TypeLong, TypePort])
      = "String Long Port" ∧
    stringsSplit (String.intercalate " "
      (JSParamTypes.toStringSlice [TypeString, TypeLong, TypePort])) ' '
      = ["String", "Long", "Port"] :=
  ⟨by decide, (render_split_roundtrip [TypeString, TypeLong, TypePort] (by decide)
    (by decide)).1⟩

/-! ## Claims on the test loop -/

theorem testLoop_invalid {σ : Type} (eng : Engine σ) (fname : String) (fconf : Function)
    (t : Test) (post : List Test) (i : Nat) (st : List JSParamTypes × JSParamType)
    (h₁ : t.Expect = none) (h₂ : t.Error = false) (h₃ : t.Null = false) :
    testLoop eng fname fconf (t :: post) i st = Except.error (GenError.invalidTestCase (i + 1)) := by
  obtain ⟨tpt, rt⟩ := st
  simp [testLoop, h₁, h₂, h₃]

theorem testLoop_reach {σ : Type} (eng : Engine σ) (fname : String) (fconf : Function)
    (pre rest : List Test) :
    ∀ (i : Nat) (st st' : List JSParamTypes × JSParamType),
      testLoop eng fname fconf pre i st = Except.ok st' →
      testLoop eng fname fconf (pre ++ rest) i st =
        testLoop eng fname fconf rest (i + pre.length) st' := by
  induction pre with
  | nil =>
    intro i st st' h
    simp only [testLoop] at h
    cases h
    rfl
  | cons t pre ih =>
    intro i st st' h
    obtain ⟨tpt, rt⟩ := st
    by_cases hc : t.Expect = none ∧ ¬ t.Error ∧ ¬ t.Null
    · simp only [testLoop, hc] at h
      simp at h
    · cases hpc : parseCall eng.ParseFile fname t.Call with
      | error e =>
        simp only [testLoop, hc, hpc] at h
        simp at h
      | ok tc =>
        cases hex : executeTest eng fconf.Source fconf.IncludesCompiled t with
        | error e =>
          simp only [testLoop, hc, hpc, hex] at h
          simp at h
        | ok r =>
          simp only [testLoop, hc, hpc, hex, if_false] at h
          have hcons : (t :: pre) ++ rest = t :: (pre ++ rest) := rfl
          rw [hcons]
          simp only [testLoop, hc, hpc, hex, if_false]
          rw [ih _ _ _ h]
          have hidx : i + 1 + pre.length = i + (t :: pre).length := by
            simp only [List.length_cons]
            omega
          rw [hidx]

/-- C16: a test that sets none of `expect`, `error` and `null` is rejected before
it is run.  When the function parses, its includes compile and the tests before
index `i` pass, a test at index `i` with no expected value, `error` false and
`null` false makes `generate` fail with the invalid test case error naming `i+1`,
for every parser and interpreter, and nothing is emitted for the function. -/
theorem invalid_test_case_rejected {σ : Type} (eng : Engine σ) (config : Config)
    (fname : String) (fconf : Function) (pre : List Test) (t : Test) (post : List Test)
    (jsf : JSFunction) (includes : String) (st : List JSParamTypes × JSParamType)
    (htests : fconf.Tests = pre ++ t :: post)
    (hparse : parseFunction eng.ParseFile fname fconf.Source = Except.ok jsf)
    (hinc : compileIncludes eng fconf.Includes = Except.ok includes)
    (hreach : testLoop eng fname { fconf with IncludesCompiled := includes } pre 0
      ([], TypeUnknown) = Except.ok st)
    (h₁ : t.Expect = none) (h₂ : t.Error = false) (h₃ : t.Null = false) :
    generateFunction eng config fname fconf =
      Except.error (GenError.invalidTestCase (pre.length + 1)) ∧
    (∀ g, generateFunction eng config fname fconf ≠ Except.ok g) ∧
    (∀ {τ : Type} (eng' : Engine τ) (fname' : String) (fconf' : Function) (i : Nat)
        (st' : List JSParamTypes × JSParamType),
      testLoop eng' fname' fconf' (t :: post) i st' =
        Except.error (GenError.invalidTestCase (i + 1))) := by
  have hgen : generateFunction eng config fname fconf =
      Except.error (GenError.invalidTestCase (pre.length + 1)) := by
    have key : ∀ F : Function,
        testLoop eng fname F pre 0 ([], TypeUnknown) = Except.ok st →
        testLoop eng fname F fconf.Tests 0 ([], TypeUnknown) =
          Except.error (GenError.invalidTestCase (pre.length + 1)) := by
      intro F hF
      rw [htests, testLoop_reach eng fname F pre (t :: post) 0 ([], TypeUnknown) st hF,
        testLoop_invalid eng fname F t post _ st h₁ h₂ h₃]
      simp
    unfold generateFunction
    simp only [hparse, hinc, key _ hreach]
  refine ⟨hgen, ?_, ?_⟩
  · intro g hg
    rw [hgen] at hg
    cases hg
  · intro τ eng' fname' fconf' i st'
    exact testLoop_invalid eng' fname' fconf' t post i st' h₁ h₂ h₃

/-- Witness of C16: `f` with a passing first test and a second test that sets
nothing; the error names test 2. -/
theorem invalid_test_case_rejected_witness :
    generateFunction demoEngine plainConfig "f" fInvalidDef =
      Except.error (GenError.invalidTestCase 2) :=
  (invalid_test_case_rejected demoEngine plainConfig "f" fInvalidDef
    [Test.mk "f(1)" (some (GoValue.mk "1")) false false]
    (Test.mk "not a call" none false false) []
    (JSFunction.mk "f" [JSParam.mk "a" TypeUnknown, JSParam.mk "b" TypeUnknown] false
      TypeUnknown)
    "" ([[TypeNumber]], TypeNumber) rfl rfl rfl rfl rfl rfl rfl).1

/-- C17, the code at the failing input: `pick(a, b)` has `var_args = true` written
in the file and no `parameter_types`; its one test `pick("x", null)` consolidates to
`[String, Unknown]`, and `generate` still fails with the error of uninferred
parameter types. -/
theorem var_args_remedy_rejected :
    pickConfig.IsDefined ["function", "pick", "var_args"] = true ∧
    pickDef.VarArgs = true ∧
    pickConfig.IsDefined ["function", "pick", "parameter_types"] = false ∧
    parseCall pickEngine.ParseFile "pick" "pick(\"x\", null)"
      = Except.ok { Name := "pick", ParamTypes := [TypeString, TypeUnknown] } ∧
    generateFunction pickEngine pickConfig "pick" pickDef =
      Except.error GenError.parameterTypesNotInferred :=
  ⟨rfl, rfl, rfl, rfl, rfl⟩

theorem testLoop_returns {σ : Type} (eng : Engine σ) (fname : String) (fconf : Function)
    (tests : List Test) :
    ∀ (i : Nat) (st out : List JSParamTypes × JSParamType),
      testLoop eng fname fconf tests i st = Except.ok out →
      ∃ rts : List JSParamType,
        List.Forall₂ (fun t r =>
          executeTest eng fconf.Source fconf.IncludesCompiled t = Except.ok r) tests rts ∧
        out.2 = rts.foldl mergeReturnType st.2 := by
  induction tests with
  | nil =>
    intro i st out h
    simp only [testLoop] at h
    cases h
    exact ⟨[], List.Forall₂.nil, rfl⟩
  | cons t tests ih =>
    intro i st out h
    obtain ⟨tpt, rt⟩ := st
    simp only [testLoop] at h
    split at h
    · cases h
    · split at h
      · cases h
      · split at h
        · cases h
        · rename_i r hr
          obtain ⟨rts, hall, hout⟩ := ih _ _ out h
          exact ⟨r :: rts, List.Forall₂.cons hr hall, hout⟩

/-- C18: the merge of return tags written in the test loop of `generate` is
`updateType`: the two agree on every pair of tags, hence on every sequence of
return tags from every start, and the return tag the test loop ends with is the
fold of `updateType` from `Unknown` over the tags that `executeTest` returned for
the tests, in order. -/
theorem return_merge_is_updateType :
    (∀ s t : JSParamType, mergeReturnType s t = updateType s t) ∧
    (∀ (rts : List JSParamType) (s : JSParamType),
      rts.foldl mergeReturnType s = rts.foldl updateType s) ∧
    (∀ {σ : Type} (eng : Engine σ) (fname : String) (fconf : Function) (tests : List Test)
        (tpt : List JSParamTypes) (rt : JSParamType),
      testLoop eng fname fconf tests 0 ([], TypeUnknown) = Except.ok (tpt, rt) →
      ∃ rts : List JSParamType,
        List.Forall₂ (fun t r =>
          executeTest eng fconf.Source fconf.IncludesCompiled t = Except.ok r) tests rts ∧
        rt = rts.foldl updateType TypeUnknown) := by
  have hpair : ∀ s t : JSParamType, mergeReturnType s t = updateType s t := by decide
  have hfun : mergeReturnType = updateType := funext (fun s => funext (hpair s))
  refine ⟨hpair, fun rts s => by rw [hfun], ?_⟩
  intro σ eng fname fconf tests tpt rt h
  obtain ⟨rts, hall, hout⟩ := testLoop_returns eng fname fconf tests 0 _ _ h
  exact ⟨rts, hall, by rw [← hfun]; exact hout⟩

/-! ## Order of the test cases -/

theorem foldl_updateType_congr (s₁ s₂ : JSParamType) (l₁ l₂ : List JSParamType)
    (h : ∀ t : JSParamType, t ∈ s₁ :: l₁ ↔ t ∈ s₂ :: l₂) :
    l₁.foldl updateType s₁ = l₂.foldl updateType s₂ := by
  obtain ⟨hs₁, hl₁⟩ := foldl_updateType_upper l₁ s₁
  obtain ⟨hs₂, hl₂⟩ := foldl_updateType_upper l₂ s₂
  have hup₁ : ∀ t ∈ s₁ :: l₁, absorbs (l₁.foldl updateType s₁) t := by
    intro t ht
    rcases List.mem_cons.mp ht with rfl | ht
    · exact hs₁
    · exact hl₁ t ht
  have hup₂ : ∀ t ∈ s₂ :: l₂, absorbs (l₂.foldl updateType s₂) t := by
    intro t ht
    rcases List.mem_cons.mp ht with rfl | ht
    · exact hs₂
    · exact hl₂ t ht
  apply absorbs_antisymm
  · exact foldl_updateType_least l₁ s₁ _
      (hup₂ s₁ ((h s₁).mp (List.mem_cons_self s₁ l₁)))
      (fun x hx => hup₂ x ((h x).mp (List.mem_cons_of_mem s₁ hx)))
  · exact foldl_updateType_least l₂ s₂ _
      (hup₁ s₂ ((h s₂).mpr (List.mem_cons_self s₂ l₂)))
      (fun x hx => hup₁ x ((h x).mpr (List.mem_cons_of_mem s₂ hx)))

theorem analyzeParamTypes_getElem? (first : JSParamTypes) (rest : List JSParamTypes)
    (i : Nat) :
    (analyzeParamTypes (first :: rest)).1[i]? =
      (first[i]?).map (fun seed =>
        resetUndecidable ((columnAt rest i).foldl updateType seed)) := by
  simp only [analyzeParamTypes, foldl_analyzeStep_ret]
  rw [List.getElem?_map, foldl_zipUpdate_getElem?]
  cases first[i]? <;> simp

/-- C19: two non-empty lists of observation vectors that are permutations of each
other and whose first vectors have the same length get the same consolidated
parameter types and the same vararg flag from `analyzeParamTypes`. -/
theorem analyzeParamTypes_perm (a b : JSParamTypes) (r₁ r₂ : List JSParamTypes)
    (hperm : List.Perm (a :: r₁) (b :: r₂)) (hlen : a.length = b.length) :
    analyzeParamTypes (a :: r₁) = analyzeParamTypes (b :: r₂) := by
  have hfst : (analyzeParamTypes (a :: r₁)).1 = (analyzeParamTypes (b :: r₂)).1 := by
    apply List.ext_getElem?
    intro i
    rw [analyzeParamTypes_getElem?, analyzeParamTypes_getElem?]
    by_cases hi : i < a.length
    · have hi' : i < b.length := hlen ▸ hi
      have ha : a[i]? = some a[i] := List.getElem?_eq_getElem hi
      have hb : b[i]? = some b[i] := List.getElem?_eq_getElem hi'
      rw [ha, hb]
      simp only [Option.map_some']
      have hcol : List.Perm ((a :: r₁).filterMap (fun v => v[i]?))
          ((b :: r₂).filterMap (fun v => v[i]?)) := hperm.filterMap _
      have ea : (a :: r₁).filterMap (fun v => v[i]?) = a[i] :: columnAt r₁ i := by
        simp [List.filterMap_cons, ha, columnAt]
      have eb : (b :: r₂).filterMap (fun v => v[i]?) = b[i] :: columnAt r₂ i := by
        simp [List.filterMap_cons, hb, columnAt]
      rw [ea, eb] at hcol
      have := foldl_updateType_congr a[i] b[i] (columnAt r₁ i) (columnAt r₂ i)
        (fun t => hcol.mem_iff)
      rw [this]
    · have ha : a[i]? = none := List.getElem?_eq_none (Nat.le_of_not_lt hi)
      have hb : b[i]? = none := List.getElem?_eq_none (hlen ▸ Nat.le_of_not_lt hi)
      rw [ha, hb]
      rfl
  have hsnd : (analyzeParamTypes (a :: r₁)).2 = (analyzeParamTypes (b :: r₂)).2 := by
    have hiff : ∀ (x : JSParamTypes) (r : List JSParamTypes),
        ((analyzeParamTypes (x :: r)).2 = true ↔ ∃ ts ∈ x :: r, ts.length ≠ x.length) := by
      intro x r
      simp only [analyzeParamTypes]
      rw [foldl_analyzeStep_vararg]
      simp
    rw [Bool.eq_iff_iff, hiff, hiff]
    constructor
    · rintro ⟨ts, hts, hne⟩
      exact ⟨ts, hperm.mem_iff.mp hts, hlen ▸ hne⟩
    · rintro ⟨ts, hts, hne⟩
      exact ⟨ts, hperm.mem_iff.mpr hts, hlen.symm ▸ hne⟩
  exact Prod.ext hfst hsnd

/-- Witness of C19: the vectors `[String, Number]`, `[String, Boolean]` and
`[String]` in two orders with first vectors of length 2. -/
theorem analyzeParamTypes_perm_witness :
    analyzeParamTypes [[TypeString, TypeNumber], [TypeString, TypeBoolean], [TypeString]] =
      analyzeParamTypes [[TypeString, TypeBoolean], [TypeString], [TypeString, TypeNumber]] :=
  analyzeParamTypes_perm [TypeString, TypeNumber] [TypeString, TypeBoolean]
    [[TypeString, TypeBoolean], [TypeString]] [[TypeString], [TypeString, TypeNumber]]
    (by decide) rfl

end Qustom
